import Mathlib

/-!
Verification of the youtube-watcher backend's channel/video synchronization
and deduplication core, shallowly embedded from `backend/app`:

* `routers/channels.py`   — `_process_new_videos`, `refresh_channel`,
  `refresh_all_channels`, `delete_channel`
* `routers/videos.py`     — `save_video`, `discard_video`, `bulk_save_videos`,
  `bulk_discard_videos`, `add_video_from_url`
* `routers/import_export.py` — `import_video_urls`, `import_playlist` (their
  sequential database phases, which are verbatim-identical loops)
* `services/youtube_utils.py` — `_fetch_channel_id_from_page` (error structure)

Conventions of the embedding:
* Timestamps (`datetime.now(timezone.utc)`) are abstracted as a `now : Nat`
  parameter; only their presence/absence and equality matter to the claims.
* The storage session is a `Store` record of channel and video rows.  SQL
  existence checks (`select ... scalar_one_or_none`) become `List.find?`.
  In `_process_new_videos` the session has `autoflush=False` and never
  flushes inside the loop, so its existence checks see only the rows
  committed before the operation started; the import loops `flush()` after
  every insert, so their checks also see rows added earlier in the same
  batch.  The embedding reproduces both visibilities.
* A final `commit()` enforces the unique index on `videos.youtube_video_id`:
  `commitVideos` applies the pending inserts when uniqueness is preserved and
  leaves the store unchanged otherwise (an `IntegrityError` rolls the
  transaction back and the endpoint fails without mutating the store).
* Internal UUID surrogate keys (`uuid.uuid4()`) are abstracted by a
  deterministic tag of the external id; no claim depends on their values.
* Python truthiness on optional strings (`if new_last_video_id:`,
  `if video_info.channel_id:`) is modelled by `truthyOpt` / `≠ ""`.
-/

/-- Record shape produced by the RSS source adapter
(`rss_parser.VideoInfo`). -/
structure VideoInfo where
  video_id : String
  channel_id : String
  channel_name : String
  title : String
  description : Option String
  thumbnail_url : Option String
  video_url : String
  published_at : Nat
  is_short : Bool
deriving Repr, DecidableEq

/-- Record shape produced by `rss_parser.fetch_channel_info`
(`rss_parser.ChannelInfo`). -/
structure ChannelInfo where
  channel_id : String
  name : String
  thumbnail_url : Option String
deriving Repr, DecidableEq

/-- Row of the `channels` table (`models/channel.py`). -/
structure Channel where
  id : String
  youtube_channel_id : String
  name : String
  rss_url : String
  youtube_url : String
  thumbnail_url : Option String
  last_checked : Option Nat
  last_video_id : Option String
deriving Repr, DecidableEq

/-- Row of the `videos` table (`models/video.py`).  `channel_id` is the
nullable foreign key to `channels.id` declared with `ondelete="SET NULL"`;
`channel_youtube_id`/`channel_name`/`channel_thumbnail_url` are the
denormalized channel identity fields. -/
structure Video where
  id : String
  youtube_video_id : String
  channel_id : Option String
  channel_youtube_id : Option String
  channel_name : Option String
  channel_thumbnail_url : Option String
  title : String
  description : Option String
  thumbnail_url : Option String
  video_url : String
  published_at : Nat
  status : String
  saved_at : Option Nat
  discarded_at : Option Nat
  is_short : Bool
deriving Repr, DecidableEq

/-- The persistent store: all committed `Channel` and `Video` rows. -/
structure Store where
  channels : List Channel
  videos : List Video
deriving Repr, DecidableEq

/-- Existence lookup `select(Video).where(Video.youtube_video_id == vid)`
followed by `scalar_one_or_none()`: global key, not scoped to a channel. -/
def findVideo (st : Store) (vid : String) : Option Video :=
  st.videos.find? (fun v => v.youtube_video_id == vid)

/-- Boolean form of the existence check by external video id. -/
def existsVid (st : Store) (vid : String) : Bool :=
  (findVideo st vid).isSome

/-- Lookup `select(Channel).where(Channel.youtube_channel_id == cid)`. -/
def findChannelByYt (st : Store) (cid : String) : Option Channel :=
  st.channels.find? (fun c => c.youtube_channel_id == cid)

/-- Lookup `select(Channel).where(Channel.id == internalId)`. -/
def findChannelById (st : Store) (internalId : String) : Option Channel :=
  st.channels.find? (fun c => c.id == internalId)

/-- Python truthiness of an optional string: `None` and `""` are falsy. -/
def truthyOpt : Option String → Bool
  | none => false
  | some s => s != ""

/-- Commit of pending video inserts.  The unique index on
`videos.youtube_video_id` makes `commit()` raise `IntegrityError` when the
table would contain a duplicate external id; the transaction then rolls back
and the store is left unchanged.  `commitOk` is that uniqueness test. -/
def commitOk (st : Store) (pending : List Video) : Bool :=
  decide ((st.videos ++ pending).map (fun v => v.youtube_video_id)).Nodup

/-- The `get_rss_url` helper of `youtube_utils.py`. -/
def getRssUrl (channelId : String) : String :=
  "https://www.youtube.com/feeds/videos.xml?channel_id=" ++ channelId

/-- The `get_channel_url` helper of `youtube_utils.py`. -/
def getChannelUrl (channelId : String) : String :=
  "https://www.youtube.com/channel/" ++ channelId

/-- The `Video(...)` constructor call inside `_process_new_videos`: a fresh
inbox row embedding the channel's internal id but (in this code path) none of
the denormalized channel identity fields.  The internal UUID is abstracted
deterministically. -/
def mkInboxVideo (ch : Channel) (vi : VideoInfo) : Video :=
  { id := "uuid-" ++ vi.video_id
    youtube_video_id := vi.video_id
    channel_id := some ch.id
    channel_youtube_id := none
    channel_name := none
    channel_thumbnail_url := none
    title := vi.title
    description := vi.description
    thumbnail_url := vi.thumbnail_url
    video_url := vi.video_url
    published_at := vi.published_at
    status := "inbox"
    saved_at := none
    discarded_at := none
    is_short := false }

/-- Mutable locals of the `for video_info in videos_info:` loop of
`_process_new_videos`, plus a ghost counter `inspected` of how many loop
bodies were entered (a candidate is "inspected" when the loop body runs for
it at all). -/
structure LoopState where
  created : List Video
  added : Nat
  newLast : Option String
  inspected : Nat
deriving Repr, DecidableEq

/-- The candidate walk of `_process_new_videos` (channels.py lines 232-260).
For each candidate in the given newest-first order: stop when its external id
equals the channel's stored watermark; otherwise skip it when a row with that
external id already exists in the store; otherwise create an inbox row,
count it, and record it as the candidate new watermark when it is the first
created (`new_last_video_id is None or new_videos_added == 1`).  The
existence checks read `st`, the store as of operation start: the session has
`autoflush=False` and this loop never flushes, so its own pending inserts
are invisible to them. -/
def processLoop (st : Store) (ch : Channel) : List VideoInfo → LoopState → LoopState
  | [], s => s
  | vi :: rest, s =>
    let s1 : LoopState := { s with inspected := s.inspected + 1 }
    if ch.last_video_id = some vi.video_id then
      s1
    else if existsVid st vi.video_id then
      processLoop st ch rest s1
    else
      let added' := s1.added + 1
      let newLast' :=
        if s1.newLast = none ∨ added' = 1 then some vi.video_id else s1.newLast
      processLoop st ch rest
        { created := s1.created ++ [mkInboxVideo ch vi]
          added := added'
          newLast := newLast'
          inspected := s1.inspected }

/-- Result of `_process_new_videos`: the rows added to the session, the
returned count, and the mutated channel row. -/
structure ProcessResult where
  created : List Video
  added : Nat
  channel : Channel
  inspected : Nat
deriving Repr, DecidableEq

/-- `_process_new_videos(db, channel, videos_info)` (channels.py lines
221-267): run the candidate walk, then set `last_checked` to now and assign
`last_video_id = new_last_video_id` under Python truthiness
(`if new_last_video_id:`). -/
def processNewVideos (st : Store) (now : Nat) (ch : Channel) (videosInfo : List VideoInfo) :
    ProcessResult :=
  let s := processLoop st ch videosInfo ⟨[], 0, ch.last_video_id, 0⟩
  let ch' : Channel :=
    { ch with
      last_checked := some now
      last_video_id := if truthyOpt s.newLast then s.newLast else ch.last_video_id }
  ⟨s.created, s.added, ch', s.inspected⟩

/-- Replace the channel row with the given internal id (the ORM mutates the
row in place; the commit persists it). -/
def updateChannelRow (channels : List Channel) (ch' : Channel) : List Channel :=
  channels.map (fun c => if c.id = ch'.id then ch' else c)

/-- The single-channel refresh endpoint `refresh_channel` after a successful
fetch (channels.py lines 184-218): run `_process_new_videos`, then commit.
On `IntegrityError` at commit the transaction rolls back and neither the new
rows nor the channel mutation persist. -/
def refreshWith (st : Store) (now : Nat) (ch : Channel) (videosInfo : List VideoInfo) :
    Store × Channel :=
  let r := processNewVideos st now ch videosInfo
  if commitOk st r.created then
    ({ channels := updateChannelRow st.channels r.channel
       videos := st.videos ++ r.created }, r.channel)
  else
    (st, ch)

/-- Aggregate result of the fleet refresh (`schemas.channel.RefreshSummary`). -/
structure RefreshSummary where
  channels_refreshed : Nat
  new_videos_found : Nat
  errors : List String
deriving Repr, DecidableEq

/-- Per-channel error string of `refresh_all_channels`
(`f"Channel '{channel.name}' (ID: {channel.id}): {error}"`; the single
quotes around the name are omitted from the embedding). -/
def channelErrorString (ch : Channel) (err : String) : String :=
  "Channel " ++ ch.name ++ " (ID: " ++ ch.id ++ "): " ++ err

/-- Loop over the fetch results of `refresh_all_channels` (channels.py lines
318-328).  `_fetch_channel_videos` has already converted each fetch into
either a candidate list or a captured error string, so a result is a
`Channel` paired with an `Except`.  A failed fetch only appends a tagged
error string; a successful fetch runs `_process_new_videos` against the
shared session.  No flush happens inside this loop, so every channel's
existence checks read `st`, the store as of the start of the run; the rows
to insert and the channel mutations are accumulated for the single final
commit.  (`_process_new_videos` is a total function here, so the
per-channel `except` around it at lines 323-328 can never fire.) -/
def refreshAllLoop (st : Store) (now : Nat) :
    List (Channel × Except String (List VideoInfo)) →
    List Video × List Channel × Nat × Nat × List String
  | [] => ([], [], 0, 0, [])
  | (ch, .error e) :: rest =>
    let (pv, pc, r, f, errs) := refreshAllLoop st now rest
    (pv, pc, r, f, channelErrorString ch e :: errs)
  | (ch, .ok vs) :: rest =>
    let res := processNewVideos st now ch vs
    let (pv, pc, r, f, errs) := refreshAllLoop st now rest
    (res.created ++ pv, res.channel :: pc, r + 1, f + res.added, errs)

/-- Apply the accumulated channel-row mutations of a fleet run. -/
def applyChannelUpdates (channels : List Channel) : List Channel → List Channel
  | [] => channels
  | ch' :: rest => applyChannelUpdates (updateChannelRow channels ch') rest

/-- The fleet refresh endpoint `refresh_all_channels` (channels.py lines
282-337).  The fetch phase is abstracted as a function from a channel to
either a candidate list or the captured error string of
`_fetch_channel_videos` (the semaphore only bounds fetch concurrency and the
write phase below is strictly sequential; see the module comment).  With no
channels stored, the endpoint returns an empty summary without touching the
store.  Otherwise one commit finalizes all changes; on `IntegrityError` the
transaction rolls back and the store is unchanged (the endpoint then fails,
so the summary describes the committed case). -/
def refreshAllChannels (st : Store) (now : Nat)
    (fetch : Channel → Except String (List VideoInfo)) : Store × RefreshSummary :=
  if st.channels = [] then
    (st, ⟨0, 0, []⟩)
  else
    let acc := refreshAllLoop st now (st.channels.map (fun ch => (ch, fetch ch)))
    let st' :=
      if commitOk st acc.1 then
        { channels := applyChannelUpdates st.channels acc.2.1, videos := st.videos ++ acc.1 }
      else st
    (st', ⟨acc.2.2.1, acc.2.2.2.1, acc.2.2.2.2⟩)

/-- The `save_video` endpoint (videos.py lines 250-277): set the row's
status to `saved`, set `saved_at` to now and clear `discarded_at`.  An
unknown internal id is a 404 and the store is untouched (the identity map
below then changes nothing). -/
def saveVideo (st : Store) (now : Nat) (videoId : String) : Store :=
  { st with
    videos := st.videos.map (fun v =>
      if v.id = videoId then
        { v with status := "saved", saved_at := some now, discarded_at := none }
      else v) }

/-- The `discard_video` endpoint (videos.py lines 280-307): set status to
`discarded`, set `discarded_at` to now and clear `saved_at`. -/
def discardVideo (st : Store) (now : Nat) (videoId : String) : Store :=
  { st with
    videos := st.videos.map (fun v =>
      if v.id = videoId then
        { v with status := "discarded", discarded_at := some now, saved_at := none }
      else v) }

/-- The `bulk_save_videos` endpoint (videos.py lines 310-342). -/
def bulkSaveVideos (st : Store) (now : Nat) (videoIds : List String) : Store :=
  { st with
    videos := st.videos.map (fun v =>
      if videoIds.contains v.id then
        { v with status := "saved", saved_at := some now, discarded_at := none }
      else v) }

/-- The `bulk_discard_videos` endpoint (videos.py lines 345-377). -/
def bulkDiscardVideos (st : Store) (now : Nat) (videoIds : List String) : Store :=
  { st with
    videos := st.videos.map (fun v =>
      if videoIds.contains v.id then
        { v with status := "discarded", discarded_at := some now, saved_at := none }
      else v) }

/-- The `Video(...)` constructor call of `add_video_from_url` (videos.py
lines 443-458), embedding the channel lookup of step 4: the new row links to
an existing channel when one matches the video's owning-channel external id
(Python truthiness: an empty channel id skips the lookup) and is otherwise
channel-less; the external channel id and name are embedded and
`channel_thumbnail_url` is left unset. -/
def mkFromUrlVideo (st : Store) (now : Nat) (info : VideoInfo) : Video :=
  { id := "uuid-" ++ info.video_id
    youtube_video_id := info.video_id
    channel_id :=
      if info.channel_id ≠ "" then
        match findChannelByYt st info.channel_id with
        | some c => some c.id
        | none => none
      else none
    channel_youtube_id := some info.channel_id
    channel_name := some info.channel_name
    channel_thumbnail_url := none
    title := info.title
    description := info.description
    thumbnail_url := info.thumbnail_url
    video_url := info.video_url
    published_at := info.published_at
    status := "saved"
    saved_at := some now
    discarded_at := none
    is_short := info.is_short }

/-- The `add_video_from_url` endpoint (videos.py lines 380-471), after URL
extraction and fetch have produced `videoId` and `info`
(`fetch_video_by_id(videoId)`).  If a row with that external id exists, it
is re-saved (status `saved`, `saved_at` set, `discarded_at` cleared)
regardless of its current status.  Otherwise the channels table is only
read: the new row links to an existing channel when one matches
`info.channel_id` (Python truthiness: an empty channel id is skipped) and is
otherwise channel-less, with the external channel id and name embedded and
`channel_thumbnail_url` left `None`.  The final commit enforces the unique
index; on `IntegrityError` the store is unchanged. -/
def addVideoFromUrl (st : Store) (now : Nat) (videoId : String) (info : VideoInfo) : Store :=
  match findVideo st videoId with
  | some _ =>
    { st with
      videos := st.videos.map (fun v =>
        if v.youtube_video_id = videoId then
          { v with status := "saved", saved_at := some now, discarded_at := none }
        else v) }
  | none =>
    let v := mkFromUrlVideo st now info
    if commitOk st [v] then { st with videos := st.videos ++ [v] } else st

/-- The `delete_channel` endpoint (channels.py lines 161-181).  The handler
issues a bulk `DELETE FROM channels WHERE id = ...`; a statement-level
delete does not run the ORM relationship cascade of `Channel.videos`, so the
declared foreign-key action of `videos.channel_id`
(`ondelete="SET NULL"`, models/video.py line 15) governs the videos: their
owning-channel reference is nulled and the rows themselves are kept.  An
unknown id is a 404 (the filter and map below then change nothing). -/
def deleteChannel (st : Store) (channelId : String) : Store :=
  { channels := st.channels.filter (fun c => c.id != channelId)
    videos := st.videos.map (fun v =>
      if v.channel_id = some channelId then { v with channel_id := none } else v) }

/-- Outcome of the parallel fetch phase of `import_video_urls` for one
reference (the `FetchResult` class of import_export.py lines 351-366).
`import_playlist` builds the same shape minus `url`/`skip_reason`; its
results are embedded with `skip_reason := none`. -/
structure FetchResult where
  url : String
  video_id : Option String
  video_info : Option VideoInfo
  channel_info : Option ChannelInfo
  error : Option String
  skip_reason : Option String
deriving Repr, DecidableEq

/-- The `Channel(...)` constructor call of the import loops
(import_export.py lines 474-481): a channel created from the fetched channel
info, with `last_checked` set and no watermark.  The internal UUID is
abstracted deterministically. -/
def mkImportChannel (now : Nat) (channelYtId : String) (ci : ChannelInfo) : Channel :=
  { id := "uuid-" ++ channelYtId
    youtube_channel_id := channelYtId
    name := ci.name
    rss_url := getRssUrl channelYtId
    youtube_url := getChannelUrl channelYtId
    thumbnail_url := ci.thumbnail_url
    last_checked := some now
    last_video_id := none }

/-- The `Video(...)` constructor call of the import loops (import_export.py
lines 490-504): a saved row with the denormalized channel id and name
embedded (`channel_thumbnail_url` deliberately `None`) and
`description or ""`. -/
def mkImportVideo (now : Nat) (channelId : Option String) (vi : VideoInfo) : Video :=
  { id := "uuid-" ++ vi.video_id
    youtube_video_id := vi.video_id
    channel_id := channelId
    channel_youtube_id := some vi.channel_id
    channel_name := some vi.channel_name
    channel_thumbnail_url := none
    title := vi.title
    description := some (vi.description.getD "")
    thumbnail_url := vi.thumbnail_url
    video_url := vi.video_url
    published_at := vi.published_at
    status := "saved"
    saved_at := some now
    is_short := vi.is_short
    discarded_at := none }

/-- Accumulated state of the sequential database phase of the import
endpoints: the store (the loop flushes after every insert, so later
existence checks see earlier inserts of the same batch), the in-batch
channel memoization cache keyed by channel external id, and the counters
and error list of the result. -/
structure ImportState where
  store : Store
  cache : List (String × Channel)
  imported : Nat
  skipped : Nat
  errors : List String
deriving Repr, DecidableEq

/-- The status transition the import loops apply to an existing non-saved
video (import_export.py lines 449-452): set status to `saved` and set
`saved_at` — unlike `save_video`, the discarded timestamp is left
untouched. -/
def importMarkSaved (st : Store) (now : Nat) (vid : String) : Store :=
  { st with
    videos := st.videos.map (fun w =>
      if w.youtube_video_id = vid then
        { w with status := "saved", saved_at := some now }
      else w) }

/-- The `Find or create channel association` block of the import loops
(import_export.py lines 457-487): consult the in-batch memoization cache,
then the channels table, then create the channel from the fetched channel
info (caching whatever was found or created); without channel info the
video stays channel-less.  Returns the (possibly extended) store, the
updated cache, and the internal channel id to link. -/
def resolveChannel (now : Nat) (store : Store) (cache : List (String × Channel))
    (channelYtId : String) (channelInfo : Option ChannelInfo) :
    Store × List (String × Channel) × Option String :=
  if channelYtId ≠ "" then
    match cache.lookup channelYtId with
    | some ch => (store, cache, some ch.id)
    | none =>
      match findChannelByYt store channelYtId with
      | some ch => (store, (channelYtId, ch) :: cache, some ch.id)
      | none =>
        match channelInfo with
        | some ci =>
          let ch := mkImportChannel now channelYtId ci
          ({ store with channels := store.channels ++ [ch] },
           (channelYtId, ch) :: cache, some ch.id)
        | none => (store, cache, none)
  else (store, cache, none)

/-- One iteration of the sequential database phase shared verbatim by
`import_video_urls` (import_export.py lines 429-510) and `import_playlist`
(lines 615-692): skip blank references; record fetch errors; re-save an
existing non-saved video via `importMarkSaved` or skip an already-saved
one; otherwise resolve the owning channel via `resolveChannel` and insert
the video as saved.  A malformed success result without video data
corresponds to the `AttributeError` caught by the blanket `except`, which
records an error string. -/
def importStep (now : Nat) (s : ImportState) (r : FetchResult) : ImportState :=
  if r.skip_reason = some "empty" then s
  else if truthyOpt r.error then
    { s with errors := s.errors ++ [r.error.getD ""] }
  else
    match r.video_id, r.video_info with
    | some vid, some vi =>
      match findVideo s.store vid with
      | some v =>
        if v.status ≠ "saved" then
          { s with store := importMarkSaved s.store now vid, imported := s.imported + 1 }
        else
          { s with skipped := s.skipped + 1 }
      | none =>
        let r3 := resolveChannel now s.store s.cache vi.channel_id r.channel_info
        { s with
          store := { r3.1 with videos := r3.1.videos ++ [mkImportVideo now r3.2.2 vi] }
          cache := r3.2.1
          imported := s.imported + 1 }
    | _, _ =>
      { s with errors := s.errors ++ ["Error importing " ++ r.url] }

/-- The whole sequential database phase: fold `importStep` over the fetch
results in their original order. -/
def importLoop (now : Nat) (results : List FetchResult) (s : ImportState) : ImportState :=
  results.foldl (importStep now) s

/-- The `import_video_urls` endpoint (import_export.py lines 335-520) from
the end of its parallel fetch phase onward: the sequential database phase
over the captured per-reference outcomes, finalized by a single commit.
Duplicate inserts cannot reach that commit because every insert is flushed
and later existence checks see it. -/
def importVideoUrls (st : Store) (now : Nat) (results : List FetchResult) : ImportState :=
  importLoop now results ⟨st, [], 0, 0, []⟩

/-- The `import_playlist` endpoint (import_export.py lines 523-702): if the
playlist expansion itself fails, the operation reports that single error and
zero totals without reaching the fetch phase; otherwise its database phase
is the same loop as `import_video_urls` over the per-video fetch results. -/
def importPlaylist (st : Store) (now : Nat)
    (expansion : Except String (List FetchResult)) : ImportState :=
  match expansion with
  | .error e => ⟨st, [], 0, 0, [e]⟩
  | .ok results => importLoop now results ⟨st, [], 0, 0, []⟩

/-- Abstraction of an `httpx` response as seen by
`_fetch_channel_id_from_page`: the final URL after redirects
(`response.url`) and the page body (`response.text`). -/
structure PageResponse where
  final_url : String
  html : String
deriving Repr, DecidableEq

/-- The body of `_fetch_channel_id_from_page` (youtube_utils.py lines
112-161) after a successful (non-raising) GET.  The two regex extractions —
the `<meta itemprop="channelId" ...>` tag and the `UC...` token scan of the
embedded `ytInitialData` JSON — are abstracted as function parameters from
the page body to an optional channel id; the control flow around them is the
source's: try the meta tag, fall back to the JSON scan, otherwise raise
`ValueError("Could not extract channel ID from page: ...")`.  The function
never inspects `resp.final_url`: the source has no branch that detects a
redirect to a consent/interstitial page. -/
def fetchChannelIdFromPage (extractMeta extractJson : String → Option String)
    (url : String) (resp : PageResponse) : Except String String :=
  match extractMeta resp.html with
  | some cid => .ok cid
  | none =>
    match extractJson resp.html with
    | some cid => .ok cid
    | none => .error ("Could not extract channel ID from page: " ++ url)

/-- One storage-mutating operation of the core, as offered through the HTTP
entry points that create video rows: a single-channel refresh
(reconciliation), a fleet refresh, a single add-by-URL, and the two bulk
imports.  Network outcomes are carried as data, having been captured in the
respective fetch phases. -/
inductive StoreOp where
  | refreshOne (now : Nat) (channelId : String) (fetched : List VideoInfo)
  | refreshFleet (now : Nat) (fetch : Channel → Except String (List VideoInfo))
  | addFromUrl (now : Nat) (videoId : String) (info : VideoInfo)
  | importUrls (now : Nat) (results : List FetchResult)
  | importPlaylistOp (now : Nat) (expansion : Except String (List FetchResult))

/-- Apply one operation to the committed store, yielding the committed store
after it finishes (successfully or not: a failed operation rolls back). -/
def applyOp (st : Store) : StoreOp → Store
  | .refreshOne now channelId fetched =>
    match findChannelById st channelId with
    | some ch => (refreshWith st now ch fetched).1
    | none => st
  | .refreshFleet now fetch => (refreshAllChannels st now fetch).1
  | .addFromUrl now videoId info => addVideoFromUrl st now videoId info
  | .importUrls now results => (importVideoUrls st now results).store
  | .importPlaylistOp now expansion => (importPlaylist st now expansion).store

/-- Apply a sequence of operations in order. -/
def applyOps (st : Store) (ops : List StoreOp) : Store :=
  ops.foldl applyOp st

/-! ### Characterization of the candidate walk

The walk's per-candidate decisions depend only on the starting store and the
channel's stored watermark (neither is mutated inside the loop), so its
outputs can be described by the watermark-bounded segment of the candidate
list and the store-freshness filter. -/

/-- The initial segment of a candidate list strictly before the first
watermark match (the whole list when the watermark never occurs). -/
def stopSeg (w : Option String) (l : List VideoInfo) : List VideoInfo :=
  l.takeWhile (fun vi => !(w == some vi.video_id))

/-- The candidates of a list whose external ids are not yet in the store. -/
def freshOnly (st : Store) (l : List VideoInfo) : List VideoInfo :=
  l.filter (fun vi => !existsVid st vi.video_id)

theorem processLoop_cons (st : Store) (ch : Channel) (vi : VideoInfo)
    (rest : List VideoInfo) (s : LoopState) :
    processLoop st ch (vi :: rest) s =
      if ch.last_video_id = some vi.video_id then
        { s with inspected := s.inspected + 1 }
      else if existsVid st vi.video_id then
        processLoop st ch rest { s with inspected := s.inspected + 1 }
      else
        processLoop st ch rest
          { created := s.created ++ [mkInboxVideo ch vi]
            added := s.added + 1
            newLast :=
              if s.newLast = none ∨ s.added + 1 = 1 then some vi.video_id else s.newLast
            inspected := s.inspected + 1 } := rfl

theorem processLoop_created (st : Store) (ch : Channel) :
    ∀ (l : List VideoInfo) (s : LoopState),
      (processLoop st ch l s).created =
        s.created ++
          (freshOnly st (stopSeg ch.last_video_id l)).map (mkInboxVideo ch)
  | [], s => by simp [processLoop, stopSeg, freshOnly]
  | vi :: rest, s => by
    rw [processLoop_cons]
    by_cases hw : ch.last_video_id = some vi.video_id
    · simp [hw, stopSeg, freshOnly]
    · by_cases he : existsVid st vi.video_id
      · simp only [hw, if_false, he, if_true]
        rw [processLoop_created st ch rest]
        simp [stopSeg, freshOnly, hw, he]
      · simp only [hw, if_false, he, Bool.false_eq_true, if_false]
        rw [processLoop_created st ch rest]
        simp [stopSeg, freshOnly, hw, he]

theorem processLoop_added (st : Store) (ch : Channel) :
    ∀ (l : List VideoInfo) (s : LoopState),
      (processLoop st ch l s).added =
        s.added + (freshOnly st (stopSeg ch.last_video_id l)).length
  | [], s => by simp [processLoop, stopSeg, freshOnly]
  | vi :: rest, s => by
    rw [processLoop_cons]
    by_cases hw : ch.last_video_id = some vi.video_id
    · simp [hw, stopSeg, freshOnly]
    · by_cases he : existsVid st vi.video_id
      · simp only [hw, if_false, he, if_true]
        rw [processLoop_added st ch rest]
        simp [stopSeg, freshOnly, hw, he]
      · simp only [hw, if_false, he, Bool.false_eq_true, if_false]
        rw [processLoop_added st ch rest]
        simp [stopSeg, freshOnly, hw, he]
        omega

theorem processLoop_newLast_stable (st : Store) (ch : Channel) :
    ∀ (l : List VideoInfo) (s : LoopState) (x : String),
      s.newLast = some x → s.added ≠ 0 →
      (processLoop st ch l s).newLast = some x
  | [], _, _, hx, _ => by simpa [processLoop] using hx
  | vi :: rest, s, x, hx, ha => by
    rw [processLoop_cons]
    by_cases hw : ch.last_video_id = some vi.video_id
    · simpa [hw] using hx
    · by_cases he : existsVid st vi.video_id
      · simp only [hw, if_false, he, if_true]
        exact processLoop_newLast_stable st ch rest _ x hx ha
      · simp only [hw, if_false, he, Bool.false_eq_true, if_false]
        have hcond : ¬ (s.newLast = none ∨ s.added + 1 = 1) := by
          push_neg
          exact ⟨by simp [hx], by omega⟩
        refine processLoop_newLast_stable st ch rest _ x ?_ ?_
        · show (if s.newLast = none ∨ s.added + 1 = 1 then some vi.video_id else s.newLast) =
            some x
          rw [if_neg hcond]
          exact hx
        · simp

theorem processLoop_newLast_run (st : Store) (ch : Channel) :
    ∀ (l : List VideoInfo) (k : Nat),
      (processLoop st ch l ⟨[], 0, ch.last_video_id, k⟩).newLast =
        match (freshOnly st (stopSeg ch.last_video_id l)).head? with
        | some vi => some vi.video_id
        | none => ch.last_video_id
  | [], k => by simp [processLoop, stopSeg, freshOnly]
  | vi :: rest, k => by
    by_cases hw : ch.last_video_id = some vi.video_id
    · rw [processLoop_cons]
      simp [hw, stopSeg, freshOnly]
    · by_cases he : existsVid st vi.video_id
      · rw [processLoop_cons]
        simp only [hw, if_false, he, if_true]
        have := processLoop_newLast_run st ch rest (k + 1)
        simpa [stopSeg, freshOnly, hw, he] using this
      · have hstep : processLoop st ch (vi :: rest) ⟨[], 0, ch.last_video_id, k⟩ =
            processLoop st ch rest ⟨[mkInboxVideo ch vi], 1, some vi.video_id, k + 1⟩ := by
          rw [processLoop_cons]
          simp [hw, he]
        rw [hstep,
          processLoop_newLast_stable st ch rest
            ⟨[mkInboxVideo ch vi], 1, some vi.video_id, k + 1⟩ vi.video_id rfl (by simp)]
        simp [stopSeg, freshOnly, hw, he]

theorem processNewVideos_created (st : Store) (now : Nat) (ch : Channel)
    (l : List VideoInfo) :
    (processNewVideos st now ch l).created =
      (freshOnly st (stopSeg ch.last_video_id l)).map (mkInboxVideo ch) := by
  simp [processNewVideos, processLoop_created]

theorem processNewVideos_added (st : Store) (now : Nat) (ch : Channel)
    (l : List VideoInfo) :
    (processNewVideos st now ch l).added =
      (freshOnly st (stopSeg ch.last_video_id l)).length := by
  simp [processNewVideos, processLoop_added]

theorem processNewVideos_last_checked (st : Store) (now : Nat) (ch : Channel)
    (l : List VideoInfo) :
    (processNewVideos st now ch l).channel.last_checked = some now := rfl

/-- The committed watermark equals the external id of the first candidate the
walk actually created, and is untouched when nothing was created.  The
hypothesis rules out empty external ids, which Python truthiness would
refuse to assign (the RSS adapter never emits them). -/
theorem processNewVideos_watermark (st : Store) (now : Nat) (ch : Channel)
    (l : List VideoInfo) (hids : ∀ vi ∈ l, vi.video_id ≠ "") :
    (processNewVideos st now ch l).channel.last_video_id =
      match (freshOnly st (stopSeg ch.last_video_id l)).head? with
      | some vi => some vi.video_id
      | none => ch.last_video_id := by
  have hrun := processLoop_newLast_run st ch l 0
  show (if truthyOpt (processLoop st ch l ⟨[], 0, ch.last_video_id, 0⟩).newLast then
      (processLoop st ch l ⟨[], 0, ch.last_video_id, 0⟩).newLast
    else ch.last_video_id) = _
  rw [hrun]
  cases hh : (freshOnly st (stopSeg ch.last_video_id l)).head? with
  | none =>
    cases hl : ch.last_video_id with
    | none => simp [truthyOpt]
    | some w => by_cases hw : w = "" <;> simp [truthyOpt, hw]
  | some vi =>
    have hmem : vi ∈ l := by
      have h1 : vi ∈ freshOnly st (stopSeg ch.last_video_id l) :=
        List.mem_of_mem_head? hh
      have h2 : vi ∈ stopSeg ch.last_video_id l := List.mem_of_mem_filter h1
      exact (List.takeWhile_sublist _).mem h2
    have : vi.video_id ≠ "" := hids vi hmem
    simp [truthyOpt, this]

/-- The walk's `created`, `added` and `newLast` outputs do not depend on the
ghost `inspected` counter of the incoming state. -/
theorem processLoop_inspected_irrel (st : Store) (ch : Channel) :
    ∀ (l : List VideoInfo) (s : LoopState) (k : Nat),
      (processLoop st ch l { s with inspected := k }).created =
          (processLoop st ch l s).created ∧
        (processLoop st ch l { s with inspected := k }).added =
          (processLoop st ch l s).added ∧
        (processLoop st ch l { s with inspected := k }).newLast =
          (processLoop st ch l s).newLast
  | [], s, k => by simp [processLoop]
  | vi :: rest, s, k => by
    rw [processLoop_cons, processLoop_cons]
    by_cases hw : ch.last_video_id = some vi.video_id
    · simp [hw]
    · by_cases he : existsVid st vi.video_id
      · simp only [hw, if_false, he, if_true]
        exact processLoop_inspected_irrel st ch rest
          ⟨s.created, s.added, s.newLast, s.inspected + 1⟩ (k + 1)
      · simp only [hw, if_false, he, Bool.false_eq_true, if_false]
        exact processLoop_inspected_irrel st ch rest
          ⟨s.created ++ [mkInboxVideo ch vi], s.added + 1,
            (if s.newLast = none ∨ s.added + 1 = 1 then some vi.video_id else s.newLast),
            s.inspected + 1⟩ (k + 1)

/-- Once the walk reaches a candidate whose external id equals the stored
watermark it returns at once, so everything after that candidate is
irrelevant to the whole walk. -/
theorem processLoop_stop_tail (st : Store) (ch : Channel) (vi : VideoInfo)
    (hw : ch.last_video_id = some vi.video_id) :
    ∀ (l₁ l₂ l₂' : List VideoInfo) (s : LoopState),
      processLoop st ch (l₁ ++ vi :: l₂) s = processLoop st ch (l₁ ++ vi :: l₂') s
  | [], l₂, l₂', s => by
    rw [List.nil_append, List.nil_append, processLoop_cons, processLoop_cons]
    simp [hw]
  | x :: l₁, l₂, l₂', s => by
    rw [List.cons_append, List.cons_append, processLoop_cons, processLoop_cons]
    by_cases hx : ch.last_video_id = some x.video_id
    · simp [hx]
    · by_cases he : existsVid st x.video_id
      · simp only [hx, if_false, he, if_true]
        exact processLoop_stop_tail st ch vi hw l₁ l₂ l₂' _
      · simp only [hx, if_false, he, Bool.false_eq_true, if_false]
        exact processLoop_stop_tail st ch vi hw l₁ l₂ l₂' _

/-! ### Fixtures for concrete instances and witnesses -/

/-- Fixture: source-adapter metadata for external video id `vid`. -/
def sampleVi (vid : String) : VideoInfo :=
  ⟨vid, "UCchan", "Chan", "title", none, none, "url", 0, false⟩

/-- Fixture: a tracked channel with watermark `wm`. -/
def sampleChannel (wm : Option String) : Channel :=
  ⟨"ch1", "UCchan", "Chan", "rss", "yt", none, none, wm⟩

/-- Fixture: a stored inbox video row with external id `vid`, not linked to
any channel. -/
def sampleRow (vid : String) : Video :=
  ⟨"uuid-" ++ vid, vid, none, none, none, none, "title", none, none, "url", 0,
    "inbox", none, none, false⟩

/-- Fixture: a stored video row with external id `x` that the user has
discarded at time 3. -/
def discardedRow : Video :=
  { sampleRow "x" with status := "discarded", discarded_at := some 3 }

/-- C1: in a reconciliation walk, a candidate whose external id equals the
channel's watermark stops the walk immediately — nothing after that position
influences the result, so no later candidate is inspected or created — while
a candidate that merely already exists in storage is skipped without
creation but without stopping (same created rows, same count, same channel
mutation as if it were absent); concretely, for old watermark `v0` and fetch
`[v5, v4, v0, x]`, exactly `v5` and `v4` are created and only the first
three candidates are ever inspected. -/
theorem claim_C1_watermark_stop :
    (∀ (st : Store) (now : Nat) (ch : Channel) (vi : VideoInfo)
        (l₁ l₂ l₂' : List VideoInfo),
        ch.last_video_id = some vi.video_id →
        processNewVideos st now ch (l₁ ++ vi :: l₂) =
          processNewVideos st now ch (l₁ ++ vi :: l₂')) ∧
    (∀ (st : Store) (now : Nat) (ch : Channel) (vi : VideoInfo)
        (rest : List VideoInfo),
        existsVid st vi.video_id = true → ch.last_video_id ≠ some vi.video_id →
        (processNewVideos st now ch (vi :: rest)).created =
            (processNewVideos st now ch rest).created ∧
          (processNewVideos st now ch (vi :: rest)).added =
            (processNewVideos st now ch rest).added ∧
          (processNewVideos st now ch (vi :: rest)).channel =
            (processNewVideos st now ch rest).channel) ∧
    ((processNewVideos ⟨[sampleChannel (some "v0")], []⟩ 7 (sampleChannel (some "v0"))
        [sampleVi "v5", sampleVi "v4", sampleVi "v0", sampleVi "x"]).created.map
          (fun v => v.youtube_video_id) = ["v5", "v4"] ∧
      (processNewVideos ⟨[sampleChannel (some "v0")], []⟩ 7 (sampleChannel (some "v0"))
        [sampleVi "v5", sampleVi "v4", sampleVi "v0", sampleVi "x"]).added = 2 ∧
      (processNewVideos ⟨[sampleChannel (some "v0")], []⟩ 7 (sampleChannel (some "v0"))
        [sampleVi "v5", sampleVi "v4", sampleVi "v0", sampleVi "x"]).inspected = 3) := by
  refine ⟨?_, ?_, by decide⟩
  · intro st now ch vi l₁ l₂ l₂' hw
    unfold processNewVideos
    rw [processLoop_stop_tail st ch vi hw l₁ l₂ l₂']
  · intro st now ch vi rest he hw
    have hstep : processLoop st ch (vi :: rest) ⟨[], 0, ch.last_video_id, 0⟩ =
        processLoop st ch rest ⟨[], 0, ch.last_video_id, 0 + 1⟩ := by
      rw [processLoop_cons]
      simp [hw, he]
    have hirr := processLoop_inspected_irrel st ch rest
      ⟨[], 0, ch.last_video_id, 0⟩ (0 + 1)
    unfold processNewVideos
    refine ⟨?_, ?_, ?_⟩
    · show (processLoop st ch (vi :: rest) ⟨[], 0, ch.last_video_id, 0⟩).created = _
      rw [hstep]
      exact hirr.1
    · show (processLoop st ch (vi :: rest) ⟨[], 0, ch.last_video_id, 0⟩).added = _
      rw [hstep]
      exact hirr.2.1
    · show ({ ch with last_checked := some now, last_video_id := _ } : Channel) = _
      rw [hstep]
      rw [hirr.2.2]

/-- Witness for C1: the tail-independence and skip conjuncts applied at
concrete inputs. -/
theorem claim_C1_witness :
    (processNewVideos ⟨[], []⟩ 3 (sampleChannel (some "w"))
        ([] ++ sampleVi "w" :: [sampleVi "p"]) =
      processNewVideos ⟨[], []⟩ 3 (sampleChannel (some "w"))
        ([] ++ sampleVi "w" :: [])) ∧
    (processNewVideos ⟨[], [sampleRow "a"]⟩ 3 (sampleChannel (some "w"))
        (sampleVi "a" :: [])).created =
      (processNewVideos ⟨[], [sampleRow "a"]⟩ 3 (sampleChannel (some "w")) []).created := by
  constructor
  · exact claim_C1_watermark_stop.1 ⟨[], []⟩ 3 (sampleChannel (some "w"))
      (sampleVi "w") [] [sampleVi "p"] [] (by decide)
  · exact (claim_C1_watermark_stop.2.1 ⟨[], [sampleRow "a"]⟩ 3
      (sampleChannel (some "w")) (sampleVi "a") [] (by decide) (by decide)).1

/-- Counterexample to C2: with no stored watermark and candidates `[a, b]`
where `a` (the first candidate encountered, topmost/newest) already exists
in storage, the walk finds one new video (`b`), yet the committed watermark
is `b` — the first candidate *created* — and not `a`, the first candidate
encountered, as the claim states. -/
theorem claim_C2_counterexample :
    (processNewVideos ⟨[sampleChannel none], [sampleRow "a"]⟩ 7 (sampleChannel none)
        [sampleVi "a", sampleVi "b"]).added = 1 ∧
    (sampleVi "a").video_id = "a" ∧
    (processNewVideos ⟨[sampleChannel none], [sampleRow "a"]⟩ 7 (sampleChannel none)
        [sampleVi "a", sampleVi "b"]).channel.last_video_id = some "b" ∧
    (processNewVideos ⟨[sampleChannel none], [sampleRow "a"]⟩ 7 (sampleChannel none)
        [sampleVi "a", sampleVi "b"]).channel.last_video_id ≠ some "a" := by
  decide

/-- C2 (amended): after every reconciliation walk the channel's
`last_checked` is set to now; the watermark is set to the external id of the
first candidate the walk actually created (the newest candidate not yet in
storage), and left unchanged when nothing was created; an empty candidate
list mutates the channel only in `last_checked`, creates zero videos, and
leaves the stored video rows untouched (no error is raised: the operation
is total).  The nonempty-id hypothesis reflects that the RSS adapter never
emits an empty external id (Python truthiness would refuse to assign such a
watermark). -/
theorem claim_C2_watermark_update :
    (∀ (st : Store) (now : Nat) (ch : Channel) (l : List VideoInfo),
      (processNewVideos st now ch l).channel.last_checked = some now) ∧
    (∀ (st : Store) (now : Nat) (ch : Channel) (l : List VideoInfo),
      (∀ vi ∈ l, vi.video_id ≠ "") →
      (processNewVideos st now ch l).channel.last_video_id =
        match (processNewVideos st now ch l).created.head? with
        | some v => some v.youtube_video_id
        | none => ch.last_video_id) ∧
    (∀ (st : Store) (now : Nat) (ch : Channel),
      (processNewVideos st now ch []).channel = { ch with last_checked := some now } ∧
        (processNewVideos st now ch []).created = [] ∧
        (processNewVideos st now ch []).added = 0 ∧
        (refreshWith st now ch []).1.videos = st.videos) := by
  refine ⟨fun st now ch l => processNewVideos_last_checked st now ch l, ?_, ?_⟩
  · intro st now ch l hids
    rw [processNewVideos_watermark st now ch l hids, processNewVideos_created]
    cases hh : (freshOnly st (stopSeg ch.last_video_id l)).head? with
    | none => simp [hh, List.head?_map]
    | some vi => simp [hh, List.head?_map, mkInboxVideo]
  · intro st now ch
    refine ⟨?_, rfl, rfl, ?_⟩
    · simp [processNewVideos, processLoop]
    · unfold refreshWith
      cases hc : commitOk st ([] : List Video) <;>
        simp [hc, processNewVideos, processLoop]

/-- Witness for C2 (amended): the watermark clause applied at a concrete
input where the first created candidate is the second one encountered. -/
theorem claim_C2_witness :
    (∀ vi ∈ [sampleVi "a", sampleVi "b"], vi.video_id ≠ "") ∧
    (processNewVideos ⟨[sampleChannel none], [sampleRow "a"]⟩ 7 (sampleChannel none)
        [sampleVi "a", sampleVi "b"]).channel.last_video_id =
      match (processNewVideos ⟨[sampleChannel none], [sampleRow "a"]⟩ 7 (sampleChannel none)
          [sampleVi "a", sampleVi "b"]).created.head? with
      | some v => some v.youtube_video_id
      | none => (sampleChannel none).last_video_id :=
  ⟨by decide,
    claim_C2_watermark_update.2.1 ⟨[sampleChannel none], [sampleRow "a"]⟩ 7
      (sampleChannel none) [sampleVi "a", sampleVi "b"] (by decide)⟩

/-! ### Existence-check and list helpers -/

theorem existsVid_true_iff (st : Store) (x : String) :
    existsVid st x = true ↔ ∃ v ∈ st.videos, v.youtube_video_id = x := by
  simp [existsVid, findVideo, List.find?_isSome]

theorem existsVid_false_iff (st : Store) (x : String) :
    existsVid st x = false ↔ ∀ v ∈ st.videos, v.youtube_video_id ≠ x := by
  rw [← Bool.not_eq_true, existsVid_true_iff]
  push_neg
  rfl

theorem existsVid_mono (st st' : Store) (more : List Video)
    (h : st'.videos = st.videos ++ more) (x : String)
    (hx : existsVid st x = true) : existsVid st' x = true := by
  rw [existsVid_true_iff] at hx ⊢
  obtain ⟨v, hv, he⟩ := hx
  exact ⟨v, by rw [h]; exact List.mem_append_left _ hv, he⟩

theorem freshOnly_congr (st st' : Store) (h : st.videos = st'.videos)
    (l : List VideoInfo) : freshOnly st l = freshOnly st' l := by
  unfold freshOnly existsVid findVideo
  rw [h]

/-- The first element kept by a filter splits the list into a rejected
initial part, that element, and a tail. -/
theorem filter_head_split {α : Type} (q : α → Bool) :
    ∀ (xs : List α) (c : α), (xs.filter q).head? = some c →
      ∃ p t, xs = p ++ c :: t ∧ ∀ x ∈ p, q x = false
  | [], c, h => by simp at h
  | x :: xs, c, h => by
    cases hx : q x with
    | true =>
      have hxc : x = c := by
        rw [List.filter_cons_of_pos hx] at h
        simpa using h
      exact ⟨[], xs, by rw [hxc]; simp, by simp⟩
    | false =>
      have h' : (xs.filter q).head? = some c := by
        rwa [List.filter_cons_of_neg (by simp [hx])] at h
      obtain ⟨p, t, hpt, hall⟩ := filter_head_split q xs c h'
      refine ⟨x :: p, t, by simp [hpt], ?_⟩
      intro y hy
      rcases List.mem_cons.mp hy with hy | hy
      · rwa [hy]
      · exact hall y hy

/-- `takeWhile` over a list that satisfies the predicate up to a first
failing element returns exactly that initial part. -/
theorem takeWhile_stops {α : Type} (q : α → Bool) :
    ∀ (p : List α) (c : α) (t : List α), (∀ x ∈ p, q x = true) → q c = false →
      (p ++ c :: t).takeWhile q = p
  | [], c, t, _, hc => by simp [List.takeWhile_cons, hc]
  | x :: p, c, t, hall, hc => by
    have hx : q x = true := hall x (List.mem_cons_self x p)
    simp only [List.cons_append, List.takeWhile_cons, hx, if_true]
    rw [takeWhile_stops q p c t (fun y hy => hall y (List.mem_cons_of_mem x hy)) hc]

/-- Counterexample to C9's stated mechanism: store containing video `a`
(added through another entry point), watermark `v0`, feed `[a, b, v0]`.  The
first refresh creates only `b` and moves the watermark to `b`.  The second
refresh over the same feed adds zero videos — but its stop condition does
not trigger on the first candidate: `a` is not the watermark (it is merely
deduplicated), two candidates are inspected, and the walk stops at the
second one. -/
theorem claim_C9_counterexample :
    (processNewVideos
        (refreshWith ⟨[sampleChannel (some "v0")], [sampleRow "a"]⟩ 7
          (sampleChannel (some "v0"))
          [sampleVi "a", sampleVi "b", sampleVi "v0"]).1 8
        (refreshWith ⟨[sampleChannel (some "v0")], [sampleRow "a"]⟩ 7
          (sampleChannel (some "v0"))
          [sampleVi "a", sampleVi "b", sampleVi "v0"]).2
        [sampleVi "a", sampleVi "b", sampleVi "v0"]).added = 0 ∧
    (refreshWith ⟨[sampleChannel (some "v0")], [sampleRow "a"]⟩ 7
        (sampleChannel (some "v0"))
        [sampleVi "a", sampleVi "b", sampleVi "v0"]).2.last_video_id ≠
      some (sampleVi "a").video_id ∧
    (processNewVideos
        (refreshWith ⟨[sampleChannel (some "v0")], [sampleRow "a"]⟩ 7
          (sampleChannel (some "v0"))
          [sampleVi "a", sampleVi "b", sampleVi "v0"]).1 8
        (refreshWith ⟨[sampleChannel (some "v0")], [sampleRow "a"]⟩ 7
          (sampleChannel (some "v0"))
          [sampleVi "a", sampleVi "b", sampleVi "v0"]).2
        [sampleVi "a", sampleVi "b", sampleVi "v0"]).inspected = 2 := by
  decide

/-- C9 (amended): reconciliation is idempotent against an unchanged
upstream — refreshing a channel twice in a row on the same non-empty
candidate list adds zero videos the second time, because every candidate the
second walk reaches before its stop point already exists in storage and the
walk stops at the new watermark (which is the first candidate only when the
first run created the newest candidate, not in general).  The hypotheses
state that the committed store satisfies the unique index on external video
ids, that the feed lists each external id once, and that feed ids are
nonempty strings — all guaranteed in the source by the unique index and the
RSS adapter. -/
theorem claim_C9_refresh_idempotent :
    ∀ (st : Store) (now now2 : Nat) (ch : Channel) (fetched : List VideoInfo),
      (st.videos.map (fun v => v.youtube_video_id)).Nodup →
      (fetched.map (fun vi => vi.video_id)).Nodup →
      (∀ vi ∈ fetched, vi.video_id ≠ "") →
      fetched ≠ [] →
      (processNewVideos (refreshWith st now ch fetched).1 now2
        (refreshWith st now ch fetched).2 fetched).added = 0 := by
  intro st now now2 ch fetched hstnd hfnd hids _
  have hcr := processNewVideos_created st now ch fetched
  set F := freshOnly st (stopSeg ch.last_video_id fetched) with hFdef
  have hFsub : List.Sublist F fetched := by
    rw [hFdef]
    unfold freshOnly stopSeg
    exact (List.filter_sublist _).trans (List.takeWhile_sublist _)
  have hFidnd : (F.map (fun vi => vi.video_id)).Nodup :=
    hfnd.sublist (hFsub.map _)
  have hcrids : (processNewVideos st now ch fetched).created.map
      (fun v => v.youtube_video_id) = F.map (fun vi => vi.video_id) := by
    rw [hcr, List.map_map]
    rfl
  have hdisj : (st.videos.map (fun v => v.youtube_video_id)).Disjoint
      (F.map (fun vi => vi.video_id)) := by
    intro x hx hxF
    obtain ⟨vi, hviF, hvix⟩ := List.mem_map.mp hxF
    have hq : (!existsVid st vi.video_id) = true := by
      have hmem : vi ∈ (stopSeg ch.last_video_id fetched).filter
          (fun vi => !existsVid st vi.video_id) := by
        rw [hFdef] at hviF
        exact hviF
      exact (List.mem_filter.mp hmem).2
    have hfresh : existsVid st vi.video_id = false := by simpa using hq
    rw [existsVid_false_iff] at hfresh
    obtain ⟨v, hv, hvx⟩ := List.mem_map.mp hx
    exact hfresh v hv (by rw [hvx, ← hvix])
  have hcok : commitOk st (processNewVideos st now ch fetched).created = true := by
    unfold commitOk
    rw [decide_eq_true_iff, List.map_append, hcrids]
    exact List.nodup_append.mpr ⟨hstnd, hFidnd, hdisj⟩
  have hrw1 : (refreshWith st now ch fetched).1.videos =
      st.videos ++ (processNewVideos st now ch fetched).created := by
    unfold refreshWith
    simp [hcok]
  have hrw2 : (refreshWith st now ch fetched).2 =
      (processNewVideos st now ch fetched).channel := by
    unfold refreshWith
    simp [hcok]
  have hwm := processNewVideos_watermark st now ch fetched hids
  rw [processNewVideos_added, hrw2, hwm]
  cases hFh : F.head? with
  | none =>
    have hF0 : F = [] := List.head?_eq_none_iff.mp hFh
    have hsv : (refreshWith st now ch fetched).1.videos = st.videos := by
      rw [hrw1, hcr, hF0]
      simp
    show (freshOnly (refreshWith st now ch fetched).1
      (stopSeg ch.last_video_id fetched)).length = 0
    rw [freshOnly_congr (refreshWith st now ch fetched).1 st hsv
      (stopSeg ch.last_video_id fetched), ← hFdef, hF0]
    rfl
  | some c =>
    rw [hFdef] at hFh
    show (freshOnly (refreshWith st now ch fetched).1
      (stopSeg (some c.video_id) fetched)).length = 0
    have hFh' : ((stopSeg ch.last_video_id fetched).filter
        (fun vi => !existsVid st vi.video_id)).head? = some c := hFh
    obtain ⟨p0, t0, hsplit, hallnf⟩ :=
      filter_head_split (fun vi => !existsVid st vi.video_id)
        (stopSeg ch.last_video_id fetched) c hFh'
    have hfetched : fetched = p0 ++ c :: (t0 ++
        fetched.dropWhile (fun vi => !(ch.last_video_id == some vi.video_id))) := by
      conv_lhs => rw [← List.takeWhile_append_dropWhile
        (fun vi => !(ch.last_video_id == some vi.video_id)) fetched]
      rw [show fetched.takeWhile (fun vi => !(ch.last_video_id == some vi.video_id)) =
        stopSeg ch.last_video_id fetched from rfl, hsplit]
      simp
    have hneq : ∀ x ∈ p0, x.video_id ≠ c.video_id := by
      intro x hx heq
      have hnd' := hfnd
      rw [hfetched, List.map_append, List.map_cons] at hnd'
      obtain ⟨-, -, hdisj'⟩ := List.nodup_append.mp hnd'
      exact hdisj' (List.mem_map_of_mem _ hx) (by rw [heq]; exact List.mem_cons_self _ _)
    have hstop2 : stopSeg (some c.video_id) fetched = p0 := by
      show fetched.takeWhile
        (fun vi => !((some c.video_id : Option String) == some vi.video_id)) = p0
      rw [hfetched]
      refine takeWhile_stops _ p0 c _ ?_ ?_
      · intro x hx
        have hne := hneq x hx
        simp only [Bool.not_eq_true']
        rw [beq_eq_false_iff_ne]
        intro hcontra
        have hcx : c.video_id = x.video_id := by injection hcontra
        exact hne hcx.symm
      · simp
    rw [hstop2]
    have hex : ∀ x ∈ p0, existsVid (refreshWith st now ch fetched).1 x.video_id = true := by
      intro x hx
      have h1 : (!existsVid st x.video_id) = false := hallnf x hx
      have h2 : existsVid st x.video_id = true := by simpa using h1
      exact existsVid_mono st _ _ hrw1 _ h2
    have : freshOnly (refreshWith st now ch fetched).1 p0 = [] := by
      rw [freshOnly]
      refine List.filter_eq_nil_iff.mpr ?_
      intro x hx
      simp [hex x hx]
    rw [this]
    rfl

/-- Witness for C9 (amended): the idempotence theorem applied to a concrete
store, channel, and feed. -/
theorem claim_C9_witness :
    ((⟨[sampleChannel (some "v0")], [sampleRow "a"]⟩ : Store).videos.map
        (fun v => v.youtube_video_id)).Nodup ∧
    ([sampleVi "a", sampleVi "b", sampleVi "v0"].map (fun vi => vi.video_id)).Nodup ∧
    (∀ vi ∈ [sampleVi "a", sampleVi "b", sampleVi "v0"], vi.video_id ≠ "") ∧
    ([sampleVi "a", sampleVi "b", sampleVi "v0"] : List VideoInfo) ≠ [] ∧
    (processNewVideos
      (refreshWith ⟨[sampleChannel (some "v0")], [sampleRow "a"]⟩ 7
        (sampleChannel (some "v0")) [sampleVi "a", sampleVi "b", sampleVi "v0"]).1 8
      (refreshWith ⟨[sampleChannel (some "v0")], [sampleRow "a"]⟩ 7
        (sampleChannel (some "v0")) [sampleVi "a", sampleVi "b", sampleVi "v0"]).2
      [sampleVi "a", sampleVi "b", sampleVi "v0"]).added = 0 :=
  ⟨by decide, by decide, by decide, by decide,
    claim_C9_refresh_idempotent ⟨[sampleChannel (some "v0")], [sampleRow "a"]⟩ 7 8
      (sampleChannel (some "v0")) [sampleVi "a", sampleVi "b", sampleVi "v0"]
      (by decide) (by decide) (by decide) (by decide)⟩

/-! ### The store-wide uniqueness invariant on external video ids -/

/-- The external video ids of all stored video rows. -/
def videoIds (st : Store) : List String :=
  st.videos.map (fun v => v.youtube_video_id)

/-- The dedup invariant: every external video id occurs on at most one row,
i.e. the id column is duplicate-free (what the unique index enforces). -/
def videosNodup (st : Store) : Prop :=
  (videoIds st).Nodup

instance (st : Store) : Decidable (videosNodup st) := by
  unfold videosNodup
  infer_instance

/-- Phase 1 of the import endpoints only produces results whose
`video_info`, when present, carries the very id the result was fetched for
(`fetch_video_by_id(video_id)` echoes its argument). -/
def fetchResultWF (r : FetchResult) : Bool :=
  match r.video_info with
  | some vi => r.video_id == some vi.video_id
  | none => true

/-- Well-formedness of an operation's captured network data (trivial except
for the import fetch results). -/
def storeOpWF : StoreOp → Bool
  | .importUrls _ results => results.all fetchResultWF
  | .importPlaylistOp _ (.ok results) => results.all fetchResultWF
  | _ => true

theorem findVideo_none_iff (st : Store) (x : String) :
    findVideo st x = none ↔ ∀ v ∈ st.videos, v.youtube_video_id ≠ x := by
  simp [findVideo, List.find?_eq_none]

theorem videoIds_map (vs : List Video) (f : Video → Video)
    (h : ∀ v, (f v).youtube_video_id = v.youtube_video_id) :
    (vs.map f).map (fun v => v.youtube_video_id) =
      vs.map (fun v => v.youtube_video_id) := by
  rw [List.map_map]
  exact List.map_congr_left (fun v _ => h v)

theorem nodup_append_single {α : Type} {l : List α} {x : α}
    (h : l.Nodup) (hx : x ∉ l) : (l ++ [x]).Nodup := by
  rw [List.nodup_append]
  refine ⟨h, List.nodup_singleton x, ?_⟩
  intro a ha hax
  rw [List.mem_singleton.mp hax] at ha
  exact hx ha

theorem videosNodup_refreshWith (st : Store) (now : Nat) (ch : Channel)
    (fetched : List VideoInfo) (h : videosNodup st) :
    videosNodup (refreshWith st now ch fetched).1 := by
  unfold refreshWith
  cases hc : commitOk st (processNewVideos st now ch fetched).created with
  | false => simpa [hc] using h
  | true =>
    simp only [hc, if_true]
    exact of_decide_eq_true hc

theorem resolveChannel_videos (now : Nat) (store : Store)
    (cache : List (String × Channel)) (cid : String) (ci : Option ChannelInfo) :
    (resolveChannel now store cache cid ci).1.videos = store.videos := by
  unfold resolveChannel
  split
  · split
    · rfl
    · split
      · rfl
      · split
        · rfl
        · rfl
  · rfl

theorem importStep_skip_eq (now : Nat) (s : ImportState) (r : FetchResult)
    (hskip : r.skip_reason = some "empty") : importStep now s r = s := by
  unfold importStep
  rw [if_pos hskip]

theorem importStep_error_eq (now : Nat) (s : ImportState) (r : FetchResult)
    (hskip : ¬ r.skip_reason = some "empty") (herr : truthyOpt r.error = true) :
    importStep now s r = { s with errors := s.errors ++ [r.error.getD ""] } := by
  unfold importStep
  rw [if_neg hskip, herr, if_pos rfl]

theorem importStep_existing_notsaved_eq (now : Nat) (s : ImportState)
    (r : FetchResult) (vid : String) (vi : VideoInfo) (v : Video)
    (hskip : ¬ r.skip_reason = some "empty") (herr : truthyOpt r.error = false)
    (hvid : r.video_id = some vid) (hvi : r.video_info = some vi)
    (hfind : findVideo s.store vid = some v) (hst : v.status ≠ "saved") :
    importStep now s r =
      { s with store := importMarkSaved s.store now vid, imported := s.imported + 1 } := by
  unfold importStep
  rw [if_neg hskip, herr]
  simp only [Bool.false_eq_true, if_false, hvid, hvi]
  rw [hfind]
  exact if_pos hst

theorem importStep_existing_saved_eq (now : Nat) (s : ImportState)
    (r : FetchResult) (vid : String) (vi : VideoInfo) (v : Video)
    (hskip : ¬ r.skip_reason = some "empty") (herr : truthyOpt r.error = false)
    (hvid : r.video_id = some vid) (hvi : r.video_info = some vi)
    (hfind : findVideo s.store vid = some v) (hst : v.status = "saved") :
    importStep now s r = { s with skipped := s.skipped + 1 } := by
  unfold importStep
  rw [if_neg hskip, herr]
  simp only [Bool.false_eq_true, if_false, hvid, hvi]
  rw [hfind]
  simp [hst]

theorem importStep_fresh_eq (now : Nat) (s : ImportState) (r : FetchResult)
    (vid : String) (vi : VideoInfo)
    (hskip : ¬ r.skip_reason = some "empty") (herr : truthyOpt r.error = false)
    (hvid : r.video_id = some vid) (hvi : r.video_info = some vi)
    (hfind : findVideo s.store vid = none) :
    importStep now s r =
      { s with
        store := { (resolveChannel now s.store s.cache vi.channel_id r.channel_info).1 with
          videos := (resolveChannel now s.store s.cache vi.channel_id r.channel_info).1.videos
            ++ [mkImportVideo now
              (resolveChannel now s.store s.cache vi.channel_id r.channel_info).2.2 vi] }
        cache := (resolveChannel now s.store s.cache vi.channel_id r.channel_info).2.1
        imported := s.imported + 1 } := by
  unfold importStep
  rw [if_neg hskip, herr]
  simp only [Bool.false_eq_true, if_false, hvid, hvi]
  rw [hfind]

theorem importStep_malformed_eq (now : Nat) (s : ImportState) (r : FetchResult)
    (hskip : ¬ r.skip_reason = some "empty") (herr : truthyOpt r.error = false)
    (hmal : r.video_id = none ∨ r.video_info = none) :
    importStep now s r = { s with errors := s.errors ++ ["Error importing " ++ r.url] } := by
  unfold importStep
  rw [if_neg hskip, herr]
  simp only [Bool.false_eq_true, if_false]
  rcases hmal with hmal | hmal
  · rw [hmal]
  · rw [hmal]
    cases r.video_id <;> rfl

theorem videosNodup_importMarkSaved (st : Store) (now : Nat) (vid : String)
    (h : videosNodup st) : videosNodup (importMarkSaved st now vid) := by
  unfold videosNodup videoIds importMarkSaved at *
  rw [videoIds_map _ _ (fun w => by
    by_cases hw : w.youtube_video_id = vid <;> simp [hw])]
  exact h

theorem videosNodup_importStep (now : Nat) (s : ImportState) (r : FetchResult)
    (hwf : fetchResultWF r = true) (h : videosNodup s.store) :
    videosNodup (importStep now s r).store := by
  by_cases hskip : r.skip_reason = some "empty"
  · rw [importStep_skip_eq now s r hskip]
    exact h
  by_cases herr : truthyOpt r.error = true
  · rw [importStep_error_eq now s r hskip herr]
    exact h
  have herrf : truthyOpt r.error = false := by
    cases hb : truthyOpt r.error
    · rfl
    · exact absurd hb herr
  cases hvid : r.video_id with
  | none =>
    rw [importStep_malformed_eq now s r hskip herrf (Or.inl hvid)]
    exact h
  | some vid =>
    cases hvi : r.video_info with
    | none =>
      rw [importStep_malformed_eq now s r hskip herrf (Or.inr hvi)]
      exact h
    | some vi =>
      have hveq : vid = vi.video_id := by
        unfold fetchResultWF at hwf
        rw [hvi, hvid] at hwf
        simpa using hwf
      cases hfind : findVideo s.store vid with
      | some v =>
        by_cases hst : v.status = "saved"
        · rw [importStep_existing_saved_eq now s r vid vi v hskip herrf hvid hvi hfind hst]
          exact h
        · rw [importStep_existing_notsaved_eq now s r vid vi v hskip herrf hvid hvi hfind hst]
          exact videosNodup_importMarkSaved s.store now vid h
      | none =>
        rw [importStep_fresh_eq now s r vid vi hskip herrf hvid hvi hfind]
        unfold videosNodup videoIds
        show ((resolveChannel now s.store s.cache vi.channel_id r.channel_info).1.videos
          ++ [mkImportVideo now
            (resolveChannel now s.store s.cache vi.channel_id r.channel_info).2.2 vi]).map
              (fun v => v.youtube_video_id) |>.Nodup
        rw [resolveChannel_videos, List.map_append]
        refine nodup_append_single h ?_
        have hfr : ∀ w ∈ s.store.videos, w.youtube_video_id ≠ vid :=
          (findVideo_none_iff s.store vid).mp hfind
        intro hmem
        rcases List.mem_map.mp hmem with ⟨w, hw, hid⟩
        exact hfr w hw (by rw [hid]; exact hveq.symm ▸ rfl)

theorem videosNodup_importLoop (now : Nat) :
    ∀ (results : List FetchResult) (s : ImportState),
      (∀ r ∈ results, fetchResultWF r = true) → videosNodup s.store →
      videosNodup (importLoop now results s).store
  | [], _, _, h => h
  | r :: rest, s, hwf, h => by
    have hstep : importLoop now (r :: rest) s = importLoop now rest (importStep now s r) := by
      simp [importLoop]
    rw [hstep]
    exact videosNodup_importLoop now rest _
      (fun r' hr' => hwf r' (List.mem_cons_of_mem r hr'))
      (videosNodup_importStep now s r (hwf r (List.mem_cons_self r rest)) h)

theorem videosNodup_commitSingle (st : Store) (v : Video) (h : videosNodup st) :
    videosNodup (if commitOk st [v] then { st with videos := st.videos ++ [v] } else st) := by
  cases hc : commitOk st [v] with
  | false => simpa [hc] using h
  | true =>
    exact of_decide_eq_true hc

theorem videosNodup_addVideoFromUrl (st : Store) (now : Nat) (videoId : String)
    (info : VideoInfo) (h : videosNodup st) :
    videosNodup (addVideoFromUrl st now videoId info) := by
  unfold addVideoFromUrl
  cases hfind : findVideo st videoId with
  | some v =>
    unfold videosNodup videoIds at h ⊢
    rw [videoIds_map _ _ (fun w => by
      by_cases hw : w.youtube_video_id = videoId <;> simp [hw])]
    exact h
  | none => exact videosNodup_commitSingle st _ h

theorem videosNodup_refreshAllChannels (st : Store) (now : Nat)
    (fetch : Channel → Except String (List VideoInfo)) (h : videosNodup st) :
    videosNodup (refreshAllChannels st now fetch).1 := by
  unfold refreshAllChannels
  by_cases hch : st.channels = []
  · rw [if_pos hch]
    exact h
  · rw [if_neg hch]
    cases hc : commitOk st
        (refreshAllLoop st now (st.channels.map (fun ch => (ch, fetch ch)))).1 with
    | false => simpa [hc] using h
    | true =>
      simp only [hc, if_true]
      exact of_decide_eq_true hc

theorem videosNodup_applyOp (st : Store) (op : StoreOp)
    (hwf : storeOpWF op = true) (h : videosNodup st) : videosNodup (applyOp st op) := by
  cases op with
  | refreshOne now cid fetched =>
    simp only [applyOp]
    cases hfind : findChannelById st cid with
    | none => exact h
    | some ch => exact videosNodup_refreshWith st now ch fetched h
  | refreshFleet now fetch => exact videosNodup_refreshAllChannels st now fetch h
  | addFromUrl now vid info => exact videosNodup_addVideoFromUrl st now vid info h
  | importUrls now results =>
    simp only [applyOp, importVideoUrls]
    refine videosNodup_importLoop now results ⟨st, [], 0, 0, []⟩ ?_ h
    intro r hr
    unfold storeOpWF at hwf
    exact List.all_eq_true.mp hwf r hr
  | importPlaylistOp now expansion =>
    simp only [applyOp]
    cases expansion with
    | error e => exact h
    | ok results =>
      simp only [importPlaylist]
      refine videosNodup_importLoop now results ⟨st, [], 0, 0, []⟩ ?_ h
      intro r hr
      unfold storeOpWF at hwf
      exact List.all_eq_true.mp hwf r hr

/-- In a duplicate-free projection, at most one list element projects to any
given value. -/
theorem filter_count_le_one {α β : Type} [BEq β] [LawfulBEq β] (f : α → β) :
    ∀ (l : List α), (l.map f).Nodup → ∀ x, (l.filter (fun v => f v == x)).length ≤ 1
  | [], _, x => by simp
  | v :: l, h, x => by
    rw [List.map_cons, List.nodup_cons] at h
    obtain ⟨hnotin, hnd⟩ := h
    by_cases hv : (f v == x) = true
    · have hnil : l.filter (fun w => f w == x) = [] := by
        refine List.filter_eq_nil_iff.mpr ?_
        intro w hw hcontra
        have hfw : f w = x := eq_of_beq hcontra
        have hfv : f v = x := eq_of_beq hv
        exact hnotin (by rw [hfv, ← hfw]; exact List.mem_map_of_mem f hw)
      simp [List.filter_cons, hv, hnil]
    · have hv' : (f v == x) = false := by simpa using hv
      simp only [List.filter_cons, hv', Bool.false_eq_true, if_false]
      exact filter_count_le_one f l hnd x

/-- C3: for every external video id, at most one Video row exists store-wide
after any sequence of reconciliation (single-channel or fleet), single
add-by-URL, and bulk import (URL-list or playlist) operations: each path
checks existence by external video id globally before creating (and the
unique index turns any racing insert into a rolled-back conflict), so the
duplicate-free invariant of the id column is preserved by every operation.
The well-formedness hypothesis records that import fetch results carry the
id they were fetched for, as phase 1 of the import endpoints guarantees. -/
theorem claim_C3_dedup_invariant :
    ∀ (ops : List StoreOp) (st : Store),
      (∀ op ∈ ops, storeOpWF op = true) → videosNodup st →
      videosNodup (applyOps st ops) ∧
      ∀ vid, ((applyOps st ops).videos.filter
        (fun v => v.youtube_video_id == vid)).length ≤ 1 := by
  intro ops
  induction ops with
  | nil =>
    intro st _ h
    exact ⟨h, fun vid => filter_count_le_one (fun v => v.youtube_video_id)
      st.videos (show (st.videos.map (fun v => v.youtube_video_id)).Nodup from h) vid⟩
  | cons op rest ih =>
    intro st hwf h
    have h1 := videosNodup_applyOp st op (hwf op (List.mem_cons_self op rest)) h
    have h2 := ih (applyOp st op) (fun o ho => hwf o (List.mem_cons_of_mem op ho)) h1
    simpa [applyOps, List.foldl_cons] using h2

/-- Witness for C3: the same external id `x` offered first through the
single add-by-URL entry point and then through a bulk import, starting from
an empty store; the final store still holds at most one row for `x`. -/
theorem claim_C3_witness :
    videosNodup (applyOps ⟨[], []⟩
      [StoreOp.addFromUrl 5 "x" (sampleVi "x"),
       StoreOp.importUrls 6 [⟨"u", some "x", some (sampleVi "x"), none, none, none⟩]]) ∧
    ((applyOps ⟨[], []⟩
      [StoreOp.addFromUrl 5 "x" (sampleVi "x"),
       StoreOp.importUrls 6 [⟨"u", some "x", some (sampleVi "x"), none, none, none⟩]]).videos.filter
        (fun v => v.youtube_video_id == "x")).length ≤ 1 :=
  ⟨(claim_C3_dedup_invariant
      [StoreOp.addFromUrl 5 "x" (sampleVi "x"),
       StoreOp.importUrls 6 [⟨"u", some "x", some (sampleVi "x"), none, none, none⟩]]
      ⟨[], []⟩ (by decide) (by decide)).1,
   (claim_C3_dedup_invariant
      [StoreOp.addFromUrl 5 "x" (sampleVi "x"),
       StoreOp.importUrls 6 [⟨"u", some "x", some (sampleVi "x"), none, none, none⟩]]
      ⟨[], []⟩ (by decide) (by decide)).2 "x"⟩

/-- Componentwise description of the fleet write-phase loop: one tagged
error string per failed fetch (in channel order), one refreshed count and
one added-count contribution per successful fetch. -/
theorem refreshAllLoop_spec (st : Store) (now : Nat) :
    ∀ results : List (Channel × Except String (List VideoInfo)),
      (refreshAllLoop st now results).2.2.2.2 = results.filterMap (fun pr =>
        match pr.2 with
        | .error e => some (channelErrorString pr.1 e)
        | .ok _ => none) ∧
      (refreshAllLoop st now results).2.2.1 =
        (results.filter (fun pr => pr.2.isOk)).length ∧
      (refreshAllLoop st now results).2.2.2.1 = (results.map (fun pr =>
        match pr.2 with
        | .ok vs => (processNewVideos st now pr.1 vs).added
        | .error _ => 0)).sum
  | [] => by simp [refreshAllLoop]
  | (ch, .error e) :: rest => by
    have ih := refreshAllLoop_spec st now rest
    refine ⟨?_, ?_, ?_⟩ <;>
      simp [refreshAllLoop, ih.1, ih.2.1, ih.2.2, Except.isOk, Except.toBool,
        List.filter_cons]
  | (ch, .ok vs) :: rest => by
    have ih := refreshAllLoop_spec st now rest
    refine ⟨?_, ?_, ?_⟩ <;>
      simp [refreshAllLoop, ih.1, ih.2.1, ih.2.2, Except.isOk, Except.toBool,
        List.filter_cons]
    omega

/-- Fixture: a tracked channel with internal id `cid` and no watermark. -/
def fleetChannel (cid : String) : Channel :=
  ⟨cid, "UC" ++ cid, "Chan" ++ cid, "rss", "yt", none, none, none⟩

/-- Fixture: the fleet fetch of the three-channel isolation scenario —
channel `B` raises, `A` and `C` return one fresh video each. -/
def fleetFetch : Channel → Except String (List VideoInfo) :=
  fun ch =>
    if ch.id = "B" then Except.error "boom"
    else if ch.id = "A" then Except.ok [sampleVi "va"]
    else Except.ok [sampleVi "vc"]

/-- C4: a fleet-wide refresh captures each fetch failure as a per-channel
error string tagged with the channel's name and id and never aborts the run:
in general the error list has exactly one entry per failed fetch (in channel
order) and the summary counts the successfully refreshed channels and sums
their added videos; concretely, with channels `A`, `B`, `C` where `B`'s
fetch raises, the videos of `A` and `C` are committed, two channels are
refreshed with two new videos, and the error list is exactly the one entry
naming `B`. -/
theorem claim_C4_fleet_isolation :
    (∀ (st : Store) (now : Nat) (fetch : Channel → Except String (List VideoInfo)),
      (refreshAllChannels st now fetch).2.errors = st.channels.filterMap (fun ch =>
        match fetch ch with
        | .error e => some (channelErrorString ch e)
        | .ok _ => none) ∧
      (refreshAllChannels st now fetch).2.channels_refreshed =
        (st.channels.filter (fun ch => (fetch ch).isOk)).length ∧
      (refreshAllChannels st now fetch).2.new_videos_found = (st.channels.map (fun ch =>
        match fetch ch with
        | .ok vs => (processNewVideos st now ch vs).added
        | .error _ => 0)).sum) ∧
    ((refreshAllChannels ⟨[fleetChannel "A", fleetChannel "B", fleetChannel "C"], []⟩ 7
        fleetFetch).1.videos.map (fun v => v.youtube_video_id) = ["va", "vc"] ∧
      (refreshAllChannels ⟨[fleetChannel "A", fleetChannel "B", fleetChannel "C"], []⟩ 7
        fleetFetch).2.channels_refreshed = 2 ∧
      (refreshAllChannels ⟨[fleetChannel "A", fleetChannel "B", fleetChannel "C"], []⟩ 7
        fleetFetch).2.new_videos_found = 2 ∧
      (refreshAllChannels ⟨[fleetChannel "A", fleetChannel "B", fleetChannel "C"], []⟩ 7
        fleetFetch).2.errors = [channelErrorString (fleetChannel "B") "boom"]) := by
  constructor
  · intro st now fetch
    by_cases hch : st.channels = []
    · simp [refreshAllChannels, hch]
    · have hspec := refreshAllLoop_spec st now (st.channels.map (fun ch => (ch, fetch ch)))
      unfold refreshAllChannels
      rw [if_neg hch]
      refine ⟨?_, ?_, ?_⟩
      · show (refreshAllLoop st now (st.channels.map (fun ch => (ch, fetch ch)))).2.2.2.2 = _
        rw [hspec.1, List.filterMap_map]
        congr 1
      · show (refreshAllLoop st now (st.channels.map (fun ch => (ch, fetch ch)))).2.2.1 = _
        rw [hspec.2.1, List.filter_map, List.length_map]
        exact congrArg List.length (List.filter_congr (fun ch _ => rfl))
      · show (refreshAllLoop st now (st.channels.map (fun ch => (ch, fetch ch)))).2.2.2.1 = _
        rw [hspec.2.2, List.map_map]
        exact congrArg List.sum (List.map_congr_left (fun ch _ => rfl))
  · refine ⟨by decide, by decide, by decide, by decide⟩

/-- Mutual exclusivity of the lifecycle timestamps of one video row: at
least one of `saved_at` / `discarded_at` is unset. -/
def timestampsExclusive (v : Video) : Prop :=
  v.saved_at = none ∨ v.discarded_at = none

instance (v : Video) : Decidable (timestampsExclusive v) := by
  unfold timestampsExclusive
  infer_instance

/-- The exclusivity invariant over the whole store. -/
def storeExclusive (st : Store) : Prop :=
  ∀ v ∈ st.videos, timestampsExclusive v

instance (st : Store) : Decidable (storeExclusive st) :=
  List.decidableBAll _ st.videos

theorem storeExclusive_map (st : Store) (f : Video → Video)
    (hf : ∀ v, timestampsExclusive v → timestampsExclusive (f v))
    (h : storeExclusive st) : storeExclusive { st with videos := st.videos.map f } := by
  intro v hv
  obtain ⟨w, hw, hfw⟩ := List.mem_map.mp hv
  rw [← hfw]
  exact hf w (h w hw)

theorem find?_map_preserve (f : Video → Video)
    (hf : ∀ v, (f v).youtube_video_id = v.youtube_video_id) :
    ∀ (l : List Video) (x : String),
      (l.map f).find? (fun v => v.youtube_video_id == x) =
        (l.find? (fun v => v.youtube_video_id == x)).map f
  | [], _ => rfl
  | v :: l, x => by
    by_cases hv : (v.youtube_video_id == x) = true
    · have hfv : ((f v).youtube_video_id == x) = true := by rw [hf]; exact hv
      simp [List.find?_cons, hfv, hv]
    · have hfv : ((f v).youtube_video_id == x) = false := by
        rw [hf]
        simpa using hv
      have hv' : (v.youtube_video_id == x) = false := by simpa using hv
      simp only [List.map_cons, List.find?_cons, hfv, hv']
      exact find?_map_preserve f hf l x

theorem storeExclusive_commitSingle (st : Store) (v : Video)
    (h : storeExclusive st) (hv : timestampsExclusive v) :
    storeExclusive
      (if commitOk st [v] then { st with videos := st.videos ++ [v] } else st) := by
  cases hc : commitOk st [v] with
  | false => simpa [hc] using h
  | true =>
    rw [if_pos rfl]
    intro w hw
    rcases List.mem_append.mp hw with hw | hw
    · exact h w hw
    · rw [List.mem_singleton.mp hw]
      exact hv

/-- Counterexample to C5: importing (via the bulk URL import) a video that
already exists with status `discarded` transitions it to `saved` with
`saved_at` set but `discarded_at` still set — both timestamps end up set
simultaneously, violating the claimed exclusivity. -/
theorem claim_C5_counterexample :
    ((importVideoUrls
        ⟨[], [discardedRow]⟩ 9
        [⟨"u", some "x", some (sampleVi "x"), none, none, none⟩]).store.videos.map
      (fun v => (v.status, v.saved_at, v.discarded_at))) =
        [("saved", some 9, some 3)] ∧
    ¬ storeExclusive (importVideoUrls
        ⟨[], [discardedRow]⟩ 9
        [⟨"u", some "x", some (sampleVi "x"), none, none, none⟩]).store := by
  constructor
  · decide
  · decide

/-- C5 (amended): saved and discarded timestamps stay mutually exclusive
under the single and bulk save/discard endpoints, the add-by-URL endpoint
(including its re-save branch, which clears `discarded_at`), and
reconciliation (whose created inbox rows carry neither timestamp) — but the
bulk-import transition of a pre-existing non-saved video sets `saved_at`
while leaving `discarded_at` exactly as it was, so a previously discarded
video that is bulk-imported ends up with both timestamps set. -/
theorem claim_C5_timestamp_exclusivity :
    (∀ (st : Store) (now : Nat) (vid : String),
      storeExclusive st → storeExclusive (saveVideo st now vid)) ∧
    (∀ (st : Store) (now : Nat) (vid : String),
      storeExclusive st → storeExclusive (discardVideo st now vid)) ∧
    (∀ (st : Store) (now : Nat) (ids : List String),
      storeExclusive st → storeExclusive (bulkSaveVideos st now ids)) ∧
    (∀ (st : Store) (now : Nat) (ids : List String),
      storeExclusive st → storeExclusive (bulkDiscardVideos st now ids)) ∧
    (∀ (st : Store) (now : Nat) (vid : String) (info : VideoInfo),
      storeExclusive st → storeExclusive (addVideoFromUrl st now vid info)) ∧
    (∀ (st : Store) (now : Nat) (ch : Channel) (fetched : List VideoInfo),
      storeExclusive st → storeExclusive (refreshWith st now ch fetched).1) ∧
    (∀ (st : Store) (now : Nat) (vid : String) (v : Video),
      findVideo st vid = some v →
      findVideo (importMarkSaved st now vid) vid =
        some { v with status := "saved", saved_at := some now }) := by
  refine ⟨?_, ?_, ?_, ?_, ?_, ?_, ?_⟩
  · intro st now vid h
    exact storeExclusive_map st _ (fun v hex => by
      by_cases hv : v.id = vid
      · simp [timestampsExclusive, hv]
      · simpa [timestampsExclusive, hv] using hex) h
  · intro st now vid h
    exact storeExclusive_map st _ (fun v hex => by
      by_cases hv : v.id = vid
      · simp [timestampsExclusive, hv]
      · simpa [timestampsExclusive, hv] using hex) h
  · intro st now ids h
    exact storeExclusive_map st _ (fun v hex => by
      by_cases hv : v.id ∈ ids
      · simp [timestampsExclusive, hv]
      · simpa [timestampsExclusive, hv] using hex) h
  · intro st now ids h
    exact storeExclusive_map st _ (fun v hex => by
      by_cases hv : v.id ∈ ids
      · simp [timestampsExclusive, hv]
      · simpa [timestampsExclusive, hv] using hex) h
  · intro st now vid info h
    unfold addVideoFromUrl
    cases hfind : findVideo st vid with
    | some v =>
      exact storeExclusive_map st _ (fun w hex => by
        by_cases hw : w.youtube_video_id = vid
        · simp [timestampsExclusive, hw]
        · simpa [timestampsExclusive, hw] using hex) h
    | none => exact storeExclusive_commitSingle st _ h (Or.inr rfl)
  · intro st now ch fetched h
    unfold refreshWith
    cases hc : commitOk st (processNewVideos st now ch fetched).created with
    | false => simpa [hc] using h
    | true =>
      simp only [hc, if_true]
      intro w hw
      rcases List.mem_append.mp hw with hw | hw
      · exact h w hw
      · rw [processNewVideos_created] at hw
        obtain ⟨vi, _, hvw⟩ := List.mem_map.mp hw
        rw [← hvw]
        exact Or.inl rfl
  · intro st now vid v hfind
    unfold importMarkSaved findVideo
    show (st.videos.map _).find? _ = _
    rw [find?_map_preserve _ (fun w => by
      by_cases hw : w.youtube_video_id = vid <;> simp [hw]) st.videos vid]
    unfold findVideo at hfind
    rw [hfind]
    have hid : v.youtube_video_id = vid := by
      have := List.find?_some hfind
      simpa using this
    simp [hid]

/-- Witness for C5 (amended): the save endpoint applied to a store holding a
discarded video keeps the invariant, and the bulk-import transition of a
discarded video carries `discarded_at` over verbatim. -/
theorem claim_C5_witness :
    storeExclusive (⟨[], [discardedRow]⟩ : Store) ∧
    storeExclusive (saveVideo ⟨[], [discardedRow]⟩ 9 ("uuid-" ++ "x")) ∧
    findVideo (importMarkSaved ⟨[], [discardedRow]⟩ 9 "x") "x" =
      some { discardedRow with
        status := "saved", saved_at := some 9 } :=
  ⟨by decide,
   claim_C5_timestamp_exclusivity.1 ⟨[], [discardedRow]⟩ 9 ("uuid-" ++ "x") (by decide),
   claim_C5_timestamp_exclusivity.2.2.2.2.2.2 ⟨[], [discardedRow]⟩ 9 "x"
     discardedRow (by decide)⟩

/-- Number of channel rows carrying a given external channel id. -/
def channelCount (channels : List Channel) (cid : String) : Nat :=
  (channels.filter (fun c => c.youtube_channel_id == cid)).length

theorem channelCount_append_single (channels : List Channel) (newc : Channel)
    (x : String) :
    channelCount (channels ++ [newc]) x =
      channelCount channels x + (if newc.youtube_channel_id == x then 1 else 0) := by
  unfold channelCount
  rw [List.filter_append]
  by_cases hb : (newc.youtube_channel_id == x) = true
  · simp [hb]
  · have hb' : (newc.youtube_channel_id == x) = false := by simpa using hb
    simp [hb']

theorem findChannelByYt_none_iff (st : Store) (cid : String) :
    findChannelByYt st cid = none ↔ ∀ c ∈ st.channels, c.youtube_channel_id ≠ cid := by
  simp [findChannelByYt, List.find?_eq_none]

theorem channelCount_zero_iff (st : Store) (cid : String) :
    channelCount st.channels cid = 0 ↔ ∀ c ∈ st.channels, c.youtube_channel_id ≠ cid := by
  unfold channelCount
  rw [List.length_eq_zero, List.filter_eq_nil_iff]
  constructor
  · intro h c hc
    have := h c hc
    simpa using this
  · intro h c hc
    simp [h c hc]

/-- Channel-table effect of the channel-resolution block: either untouched,
or extended by exactly one new row for an external id that had no row yet. -/
theorem resolveChannel_channels_cases (now : Nat) (store : Store)
    (cache : List (String × Channel)) (cid : String) (ci : Option ChannelInfo) :
    (resolveChannel now store cache cid ci).1.channels = store.channels ∨
    ∃ newc, (resolveChannel now store cache cid ci).1.channels =
        store.channels ++ [newc] ∧
      newc.youtube_channel_id = cid ∧ findChannelByYt store cid = none := by
  unfold resolveChannel
  split
  · split
    · left; rfl
    · split
      · left; rfl
      · next hfind =>
        split
        · next ci' => exact Or.inr ⟨mkImportChannel now cid ci', rfl, rfl, hfind⟩
        · left; rfl
  · left; rfl

/-- Channel-table effect of one import iteration: either untouched, or
extended by exactly one new row whose external id had no row yet. -/
theorem importStep_channels_cases (now : Nat) (s : ImportState) (r : FetchResult) :
    (importStep now s r).store.channels = s.store.channels ∨
    ∃ newc, (importStep now s r).store.channels = s.store.channels ++ [newc] ∧
      findChannelByYt s.store newc.youtube_channel_id = none := by
  by_cases hskip : r.skip_reason = some "empty"
  · rw [importStep_skip_eq now s r hskip]
    left; rfl
  by_cases herr : truthyOpt r.error = true
  · rw [importStep_error_eq now s r hskip herr]
    left; rfl
  have herrf : truthyOpt r.error = false := by
    cases hb : truthyOpt r.error
    · rfl
    · exact absurd hb herr
  cases hvid : r.video_id with
  | none =>
    rw [importStep_malformed_eq now s r hskip herrf (Or.inl hvid)]
    left; rfl
  | some vid =>
    cases hvi : r.video_info with
    | none =>
      rw [importStep_malformed_eq now s r hskip herrf (Or.inr hvi)]
      left; rfl
    | some vi =>
      cases hfind : findVideo s.store vid with
      | some v =>
        by_cases hst : v.status = "saved"
        · rw [importStep_existing_saved_eq now s r vid vi v hskip herrf hvid hvi hfind hst]
          left; rfl
        · rw [importStep_existing_notsaved_eq now s r vid vi v hskip herrf hvid hvi
            hfind hst]
          left; rfl
      | none =>
        rw [importStep_fresh_eq now s r vid vi hskip herrf hvid hvi hfind]
        rcases resolveChannel_channels_cases now s.store s.cache vi.channel_id
            r.channel_info with hc | ⟨newc, hch, hid, hfindc⟩
        · left; exact hc
        · right
          exact ⟨newc, hch, by rw [hid]; exact hfindc⟩

theorem channelCount_importStep_le_one (now : Nat) (s : ImportState)
    (r : FetchResult) (x : String) (h : channelCount s.store.channels x ≤ 1) :
    channelCount (importStep now s r).store.channels x ≤ 1 := by
  rcases importStep_channels_cases now s r with hc | ⟨newc, hch, hfindc⟩
  · rw [hc]; exact h
  · rw [hch, channelCount_append_single]
    by_cases hb : (newc.youtube_channel_id == x) = true
    · have hx : newc.youtube_channel_id = x := eq_of_beq hb
      have h0 : channelCount s.store.channels x = 0 := by
        rw [← hx]
        exact (channelCount_zero_iff s.store newc.youtube_channel_id).mpr
          ((findChannelByYt_none_iff s.store newc.youtube_channel_id).mp hfindc)
      rw [h0, hb]
      simp
    · have hb' : (newc.youtube_channel_id == x) = false := by simpa using hb
      rw [hb']
      simpa using h

theorem channelCount_importStep_mono (now : Nat) (s : ImportState)
    (r : FetchResult) (x : String) :
    channelCount s.store.channels x ≤ channelCount (importStep now s r).store.channels x := by
  rcases importStep_channels_cases now s r with hc | ⟨newc, hch, _⟩
  · rw [hc]
  · rw [hch, channelCount_append_single]
    exact Nat.le_add_right _ _

theorem channelCount_importLoop_le_one (now : Nat) :
    ∀ (results : List FetchResult) (s : ImportState) (x : String),
      channelCount s.store.channels x ≤ 1 →
      channelCount (importLoop now results s).store.channels x ≤ 1
  | [], _, _, h => h
  | r :: rest, s, x, h => by
    have hstep : importLoop now (r :: rest) s = importLoop now rest (importStep now s r) := by
      simp [importLoop]
    rw [hstep]
    exact channelCount_importLoop_le_one now rest _ x
      (channelCount_importStep_le_one now s r x h)

theorem channelCount_importLoop_mono (now : Nat) :
    ∀ (results : List FetchResult) (s : ImportState) (x : String),
      channelCount s.store.channels x ≤
        channelCount (importLoop now results s).store.channels x
  | [], _, _ => Nat.le_refl _
  | r :: rest, s, x => by
    have hstep : importLoop now (r :: rest) s = importLoop now rest (importStep now s r) := by
      simp [importLoop]
    rw [hstep]
    exact Nat.le_trans (channelCount_importStep_mono now s r x)
      (channelCount_importLoop_mono now rest _ x)

/-- The first successful reference to a not-yet-tracked channel, imported
with an empty in-batch cache, creates exactly one channel row for it. -/
theorem importStep_creates_channel (now : Nat) (st : Store) (r : FetchResult)
    (vi : VideoInfo) (imported skipped : Nat) (errors : List String)
    (hskip : r.skip_reason = none) (herr : r.error = none)
    (hvi : r.video_info = some vi) (hvid : r.video_id = some vi.video_id)
    (hfreshv : existsVid st vi.video_id = false)
    (hcid : vi.channel_id ≠ "") (hci : r.channel_info ≠ none)
    (hc0 : channelCount st.channels vi.channel_id = 0) :
    channelCount
      (importStep now ⟨st, [], imported, skipped, errors⟩ r).store.channels
      vi.channel_id = 1 := by
  have hskip' : ¬ r.skip_reason = some "empty" := by rw [hskip]; simp
  have herrf : truthyOpt r.error = false := by rw [herr]; rfl
  have hfind : findVideo st vi.video_id = none := by
    unfold existsVid at hfreshv
    exact Option.not_isSome_iff_eq_none.mp (by rw [hfreshv]; simp)
  rw [importStep_fresh_eq now ⟨st, [], imported, skipped, errors⟩ r vi.video_id vi
    hskip' herrf hvid hvi hfind]
  obtain ⟨ci, hci'⟩ := Option.ne_none_iff_exists'.mp hci
  have hfindc : findChannelByYt st vi.channel_id = none :=
    (findChannelByYt_none_iff st vi.channel_id).mpr
      ((channelCount_zero_iff st vi.channel_id).mp hc0)
  show channelCount
    (resolveChannel now st [] vi.channel_id r.channel_info).1.channels vi.channel_id = 1
  unfold resolveChannel
  rw [if_pos hcid]
  show channelCount
    (match findChannelByYt st vi.channel_id with
      | some ch => (st, [(vi.channel_id, ch)], some ch.id)
      | none =>
        match r.channel_info with
        | some ci =>
          ({ st with channels := st.channels ++ [mkImportChannel now vi.channel_id ci] },
            [(vi.channel_id, mkImportChannel now vi.channel_id ci)],
            some (mkImportChannel now vi.channel_id ci).id)
        | none => (st, [], none)).1.channels vi.channel_id = 1
  rw [hfindc, hci']
  show channelCount (st.channels ++ [mkImportChannel now vi.channel_id ci]) vi.channel_id = 1
  rw [channelCount_append_single, hc0]
  simp [mkImportChannel]

/-- C6: bulk import creates each not-yet-tracked channel at most once per
batch — in general the import loop never lets a channel external id grow
beyond one row (creation is guarded by the cache and the channels-table
lookup) — and for a batch of references that all belong to one
not-yet-tracked channel (fresh videos, channel info fetched), exactly one
Channel row for that channel exists after the batch, however many references
there are. -/
theorem claim_C6_channel_memoization :
    (∀ (now : Nat) (results : List FetchResult) (st : Store) (c : String),
      channelCount st.channels c ≤ 1 →
      channelCount (importVideoUrls st now results).store.channels c ≤ 1) ∧
    (∀ (now : Nat) (r0 : FetchResult) (rest : List FetchResult) (st : Store) (c : String),
      c ≠ "" → channelCount st.channels c = 0 →
      (∀ r ∈ r0 :: rest, r.skip_reason = none ∧ r.error = none ∧ r.channel_info ≠ none ∧
        ∃ vi, r.video_info = some vi ∧ vi.channel_id = c ∧
          r.video_id = some vi.video_id ∧ existsVid st vi.video_id = false) →
      channelCount (importVideoUrls st now (r0 :: rest)).store.channels c = 1) := by
  constructor
  · intro now results st c h
    exact channelCount_importLoop_le_one now results ⟨st, [], 0, 0, []⟩ c h
  · intro now r0 rest st c hc hc0 hall
    obtain ⟨hskip, herr, hci, vi, hvi, hcvi, hvid, hfresh⟩ :=
      hall r0 (List.mem_cons_self _ _)
    have h1 : channelCount (importStep now ⟨st, [], 0, 0, []⟩ r0).store.channels c = 1 := by
      have hcr := importStep_creates_channel now st r0 vi 0 0 [] hskip herr hvi hvid
        hfresh (by rw [hcvi]; exact hc) hci (by rw [hcvi]; exact hc0)
      rw [← hcvi]
      exact hcr
    have hle : channelCount (importVideoUrls st now (r0 :: rest)).store.channels c ≤ 1 :=
      channelCount_importLoop_le_one now (r0 :: rest) ⟨st, [], 0, 0, []⟩ c
        (by show channelCount st.channels c ≤ 1; omega)
    have hstep : importVideoUrls st now (r0 :: rest) =
        importLoop now rest (importStep now ⟨st, [], 0, 0, []⟩ r0) := by
      simp [importVideoUrls, importLoop]
    have hge : 1 ≤ channelCount (importVideoUrls st now (r0 :: rest)).store.channels c := by
      rw [hstep]
      calc 1 = channelCount (importStep now ⟨st, [], 0, 0, []⟩ r0).store.channels c :=
            h1.symm
        _ ≤ _ := channelCount_importLoop_mono now rest _ c
    omega

/-- Witness for C6: five references to five fresh videos of the same
untracked channel, imported into an empty store, leave exactly one channel
row. -/
theorem claim_C6_witness :
    channelCount (importVideoUrls ⟨[], []⟩ 9
      [⟨"u1", some "x1", some (sampleVi "x1"), some ⟨"UCchan", "Chan", none⟩, none, none⟩,
       ⟨"u2", some "x2", some (sampleVi "x2"), some ⟨"UCchan", "Chan", none⟩, none, none⟩,
       ⟨"u3", some "x3", some (sampleVi "x3"), some ⟨"UCchan", "Chan", none⟩, none, none⟩,
       ⟨"u4", some "x4", some (sampleVi "x4"), some ⟨"UCchan", "Chan", none⟩, none, none⟩,
       ⟨"u5", some "x5", some (sampleVi "x5"), some ⟨"UCchan", "Chan", none⟩, none,
         none⟩]).store.channels "UCchan" = 1 := by
  refine claim_C6_channel_memoization.2 9
    ⟨"u1", some "x1", some (sampleVi "x1"), some ⟨"UCchan", "Chan", none⟩, none, none⟩
    [⟨"u2", some "x2", some (sampleVi "x2"), some ⟨"UCchan", "Chan", none⟩, none, none⟩,
     ⟨"u3", some "x3", some (sampleVi "x3"), some ⟨"UCchan", "Chan", none⟩, none, none⟩,
     ⟨"u4", some "x4", some (sampleVi "x4"), some ⟨"UCchan", "Chan", none⟩, none, none⟩,
     ⟨"u5", some "x5", some (sampleVi "x5"), some ⟨"UCchan", "Chan", none⟩, none, none⟩]
    ⟨[], []⟩ "UCchan" (by decide) (by decide) ?_
  intro r hr
  fin_cases hr <;> exact ⟨rfl, rfl, by simp, _, rfl, rfl, rfl, by decide⟩

/-- Fixture: a video row owned by the channel with internal id `ch1`,
carrying denormalized channel identity. -/
def ownedRow : Video :=
  { sampleRow "y" with
      channel_id := some "ch1"
      channel_youtube_id := some "UCchan"
      channel_name := some "Chan"
      channel_thumbnail_url := some "thumb" }

/-- C7: deleting a channel does not delete its videos.  Every stored video
row survives (same row count), keeping its internal id, external id,
denormalized channel external id, name and thumbnail, title and status; the
owning-channel internal reference of the deleted channel's videos is set to
null, other videos' references are untouched; and no channel row with the
deleted internal id remains. -/
theorem claim_C7_delete_preserves_videos :
    ∀ (st : Store) (channelId : String),
      (deleteChannel st channelId).videos.length = st.videos.length ∧
      (∀ c ∈ (deleteChannel st channelId).channels, c.id ≠ channelId) ∧
      ∀ v ∈ st.videos, ∃ v', v' ∈ (deleteChannel st channelId).videos ∧
        v'.id = v.id ∧ v'.youtube_video_id = v.youtube_video_id ∧
        v'.channel_youtube_id = v.channel_youtube_id ∧
        v'.channel_name = v.channel_name ∧
        v'.channel_thumbnail_url = v.channel_thumbnail_url ∧
        v'.title = v.title ∧ v'.status = v.status ∧
        v'.saved_at = v.saved_at ∧ v'.discarded_at = v.discarded_at ∧
        (v.channel_id = some channelId → v'.channel_id = none) ∧
        (v.channel_id ≠ some channelId → v'.channel_id = v.channel_id) := by
  intro st channelId
  refine ⟨?_, ?_, ?_⟩
  · unfold deleteChannel
    exact List.length_map st.videos _
  · intro c hc
    unfold deleteChannel at hc
    have := (List.mem_filter.mp hc).2
    simpa using this
  · intro v hv
    refine ⟨if v.channel_id = some channelId then { v with channel_id := none } else v,
      ?_, ?_⟩
    · unfold deleteChannel
      exact List.mem_map_of_mem _ hv
    · by_cases hcid : v.channel_id = some channelId
      · simp [hcid]
      · simp [hcid]

/-- Witness for C7: a store with one channel (internal id `ch1`) owning one
video; deletion keeps the row, nulls its owner reference, and removes the
channel row. -/
theorem claim_C7_witness :
    (deleteChannel ⟨[sampleChannel none], [ownedRow]⟩ "ch1").videos.length = 1 ∧
    (∃ v', v' ∈ (deleteChannel ⟨[sampleChannel none], [ownedRow]⟩ "ch1").videos ∧
      v'.id = ownedRow.id ∧ v'.youtube_video_id = ownedRow.youtube_video_id ∧
      v'.channel_youtube_id = ownedRow.channel_youtube_id ∧
      v'.channel_name = ownedRow.channel_name ∧
      v'.channel_thumbnail_url = ownedRow.channel_thumbnail_url ∧
      v'.title = ownedRow.title ∧ v'.status = ownedRow.status ∧
      v'.saved_at = ownedRow.saved_at ∧ v'.discarded_at = ownedRow.discarded_at ∧
      (ownedRow.channel_id = some "ch1" → v'.channel_id = none) ∧
      (ownedRow.channel_id ≠ some "ch1" → v'.channel_id = ownedRow.channel_id)) := by
  refine ⟨(claim_C7_delete_preserves_videos ⟨[sampleChannel none], [ownedRow]⟩ "ch1").1, ?_⟩
  exact (claim_C7_delete_preserves_videos ⟨[sampleChannel none], [ownedRow]⟩ "ch1").2.2
    ownedRow (by decide)

/-- Fixture: the final URL of a consent-interstitial redirect and the body
served there (from the repository's own consent-detection tests). -/
def consentUrl : String :=
  "https://consent.youtube.com/m?continue=https://www.youtube.com/@test"

/-- Fixture: the page body of the consent interstitial. -/
def consentHtml : String :=
  "<html>consent page</html>"

/-- C8 (the code contradicts it): `_fetch_channel_id_from_page` can only
return an extracted channel id or the single generic error
`Could not extract channel ID from page: <url>` — it never inspects the
response's final URL and has no branch producing a distinct consent-wall
error.  In particular, on the consent-redirect response of the repository's
own tests (whose body yields nothing to either extractor), the result is
exactly the generic parse-failure error. -/
theorem claim_C8_consent_not_detected :
    (∀ (extractMeta extractJson : String → Option String) (url : String)
        (resp : PageResponse),
      (∃ cid, fetchChannelIdFromPage extractMeta extractJson url resp =
        Except.ok cid) ∨
      fetchChannelIdFromPage extractMeta extractJson url resp =
        Except.error ("Could not extract channel ID from page: " ++ url)) ∧
    (∀ extractMeta extractJson : String → Option String,
      extractMeta consentHtml = none → extractJson consentHtml = none →
      fetchChannelIdFromPage extractMeta extractJson
          "https://www.youtube.com/@test" ⟨consentUrl, consentHtml⟩ =
        Except.error
          "Could not extract channel ID from page: https://www.youtube.com/@test") := by
  constructor
  · intro em ej url resp
    unfold fetchChannelIdFromPage
    cases hm : em resp.html with
    | some cid => exact Or.inl ⟨cid, rfl⟩
    | none =>
      cases hj : ej resp.html with
      | some cid => exact Or.inl ⟨cid, rfl⟩
      | none => exact Or.inr rfl
  · intro em ej hm hj
    unfold fetchChannelIdFromPage
    show (match em consentHtml with
      | some cid => Except.ok cid
      | none => match ej consentHtml with
        | some cid => Except.ok cid
        | none => Except.error ("Could not extract channel ID from page: " ++
            "https://www.youtube.com/@test")) = _
    rw [hm, hj]
    rfl

/-- Witness for C8: extractors that find nothing on the consent body (as the
real regexes do — the page holds no channel-id token) produce the generic
error on the consent-redirect response. -/
theorem claim_C8_witness :
    (fun _ : String => (none : Option String)) consentHtml = none ∧
    fetchChannelIdFromPage (fun _ => none) (fun _ => none)
        "https://www.youtube.com/@test" ⟨consentUrl, consentHtml⟩ =
      Except.error
        "Could not extract channel ID from page: https://www.youtube.com/@test" :=
  ⟨rfl, claim_C8_consent_not_detected.2 (fun _ => none) (fun _ => none) rfl rfl⟩

/-- C10: the add-by-URL endpoint never creates a Channel row — the channels
table is identical before and after, in every branch.  When the video does
not yet exist (and the fetched info echoes the requested id, as
`fetch_video_by_id` does, over a store satisfying the unique index), exactly
one video row is appended; it links to an existing channel only when one
matches the video's owning-channel external id, and otherwise is stored
channel-less with just the external channel id and name embedded
(`channel_thumbnail_url` left unset). -/
theorem claim_C10_from_url_no_channel :
    ∀ (st : Store) (now : Nat) (videoId : String) (info : VideoInfo),
      (addVideoFromUrl st now videoId info).channels = st.channels ∧
      (findVideo st videoId = none → info.video_id = videoId → videosNodup st →
        ∃ v, (addVideoFromUrl st now videoId info).videos = st.videos ++ [v] ∧
          v.youtube_video_id = info.video_id ∧
          v.channel_youtube_id = some info.channel_id ∧
          v.channel_name = some info.channel_name ∧
          v.channel_thumbnail_url = none ∧
          v.status = "saved" ∧
          (∀ cid, v.channel_id = some cid →
            ∃ c ∈ st.channels, c.id = cid ∧ c.youtube_channel_id = info.channel_id) ∧
          ((info.channel_id = "" ∨ findChannelByYt st info.channel_id = none) →
            v.channel_id = none)) := by
  intro st now videoId info
  constructor
  · unfold addVideoFromUrl
    cases hfind : findVideo st videoId with
    | some v => rfl
    | none =>
      cases hc : commitOk st [mkFromUrlVideo st now info] with
      | false => simp [hc]
      | true => simp [hc]
  · intro hfind hecho hnd
    unfold addVideoFromUrl
    rw [hfind]
    have hnotin : info.video_id ∉ st.videos.map (fun v => v.youtube_video_id) := by
      rw [findVideo_none_iff] at hfind
      intro hmem
      obtain ⟨w, hw, hid⟩ := List.mem_map.mp hmem
      exact hfind w hw (by rw [hid, hecho])
    have hcok : commitOk st [mkFromUrlVideo st now info] = true := by
      unfold commitOk
      rw [decide_eq_true_iff, List.map_append]
      exact nodup_append_single hnd (by simpa [mkFromUrlVideo] using hnotin)
    refine ⟨mkFromUrlVideo st now info, ?_, rfl, rfl, rfl, rfl, rfl, ?_, ?_⟩
    · show (if commitOk st [mkFromUrlVideo st now info] = true then
        { st with videos := st.videos ++ [mkFromUrlVideo st now info] } else st).videos =
          st.videos ++ [mkFromUrlVideo st now info]
      rw [hcok, if_pos rfl]
    · intro cid hcid
      have hcid' : (if info.channel_id ≠ "" then
          match findChannelByYt st info.channel_id with
          | some c => some c.id
          | none => none
        else none) = some cid := hcid
      by_cases hcc : info.channel_id ≠ ""
      · rw [if_pos hcc] at hcid'
        cases hfc : findChannelByYt st info.channel_id with
        | none =>
          rw [hfc] at hcid'
          exact absurd hcid' (by simp)
        | some c =>
          rw [hfc] at hcid'
          have hc1 : c.id = cid := by injection hcid'
          have hcmem := List.mem_of_find?_eq_some hfc
          have hcyt : c.youtube_channel_id = info.channel_id := by
            have := List.find?_some hfc
            simpa using this
          exact ⟨c, hcmem, hc1, hcyt⟩
      · rw [if_neg hcc] at hcid'
        exact absurd hcid' (by simp)
    · intro hnone
      show (if info.channel_id ≠ "" then
          match findChannelByYt st info.channel_id with
          | some c => some c.id
          | none => none
        else none) = none
      rcases hnone with hcc | hfc
      · simp [hcc]
      · by_cases hcc : info.channel_id ≠ ""
        · rw [if_pos hcc, hfc]
        · rw [if_neg hcc]

/-- Witness for C10: adding a fresh video by URL to a store tracking no
matching channel keeps the channels table unchanged and stores the video
channel-less with the external channel id and name embedded. -/
theorem claim_C10_witness :
    (addVideoFromUrl ⟨[], [sampleRow "a"]⟩ 9 "z" (sampleVi "z")).channels = [] ∧
    findVideo (⟨[], [sampleRow "a"]⟩ : Store) "z" = none ∧
    (∃ v, (addVideoFromUrl ⟨[], [sampleRow "a"]⟩ 9 "z" (sampleVi "z")).videos =
        [sampleRow "a"] ++ [v] ∧
      v.youtube_video_id = (sampleVi "z").video_id ∧
      v.channel_youtube_id = some (sampleVi "z").channel_id ∧
      v.channel_name = some (sampleVi "z").channel_name ∧
      v.channel_thumbnail_url = none ∧
      v.status = "saved" ∧
      (∀ cid, v.channel_id = some cid →
        ∃ c ∈ (⟨[], [sampleRow "a"]⟩ : Store).channels, c.id = cid ∧
          c.youtube_channel_id = (sampleVi "z").channel_id) ∧
      (((sampleVi "z").channel_id = "" ∨
          findChannelByYt ⟨[], [sampleRow "a"]⟩ (sampleVi "z").channel_id = none) →
        v.channel_id = none)) :=
  ⟨(claim_C10_from_url_no_channel ⟨[], [sampleRow "a"]⟩ 9 "z" (sampleVi "z")).1,
   by decide,
   (claim_C10_from_url_no_channel ⟨[], [sampleRow "a"]⟩ 9 "z" (sampleVi "z")).2
     (by decide) (by decide) (by decide)⟩
